import Mathlib

/-!
Session orchestration of `src/script.js`.

A shallow embedding of the model-engine lifecycle (`ensureEngineLoaded`,
`loadModel`, `reloadModel`), the conversation store (`getConversationKey`,
`getCurrentHistory`, `appendMessage`), the prompt composer
(`buildChatMessages`) and the send pipeline (`sendMessage`).

The script is single threaded: an `async` function runs without interruption
up to its next `await`.  Each `async` function is therefore split into its
synchronous segments: the segment that runs up to the `await` keeps the
source's name, and the segment that runs once the awaited promise has settled
is named `_fulfilled` / `_rejected` / `_settled`.  Work done by the engine
library itself is recorded in two logs kept in the state
(`engineCreations`, `completionRequests`).

Modelling conventions.
* The module-level `let` variables and the DOM properties the modelled
  functions write are fields of `State`.
* `conversations` is a plain JS object used as a map from string keys to arrays;
  it is a function `String → Option (List Message)` (`none` = `undefined`).
  Keys are `"global"` and character ids; names inherited from
  `Object.prototype` are not modelled.
* JS strings are Lean `String`s.
* `generateAICharactersIfPossible` lies in the part of the script that is not
  available; a call to it is only counted (`aiGenerationRequests`).
-/

namespace Script

/-! ## Data model -/

/-- The character object built by the `saveCharacter` click handler. -/
structure Character where
  id : String
  name : String
  description : String
  greeting : String
  style : String
  notes : String
  /-- Source field `by`. -/
  by_ : String
  image : Option String
deriving DecidableEq, Repr

/-- An entry of a conversation array, `{ role, content }`; also the shape of the
entries of the `messages` array sent to the engine. -/
structure Message where
  role : String
  content : String
deriving DecidableEq, Repr

/-- The global `personaProfile`. -/
structure PersonaProfile where
  name : String
  description : String
  image : Option String
deriving DecidableEq, Repr

/-- The object a `CreateMLCEngine` promise fulfils with.  Handles are told apart
by the position of the call that created them in `State.engineCreations`;
`model` is the model id that call was given. -/
structure Engine where
  creation : Nat
  model : String
deriving DecidableEq, Repr

/-- The `message` of a completion choice; `content` may be `null`. -/
structure ChoiceMessage where
  content : Option String
deriving DecidableEq, Repr

/-- One element of `completion.choices`. -/
structure Choice where
  message : Option ChoiceMessage
deriving DecidableEq, Repr

/-- The value `engine.chat.completions.create` fulfils with. -/
structure Completion where
  choices : Option (List Choice)
deriving DecidableEq, Repr

/-- One call of `engine.chat.completions.create({ model, messages })`, with the
handle it was made on. -/
structure CompletionRequest where
  engine : Engine
  model : String
  messages : List Message
deriving DecidableEq, Repr

/-- How an awaited promise settles. -/
inductive Settled (α : Type) where
  | fulfilled (value : α)
  | rejected
deriving DecidableEq, Repr

/-- Source `const MODEL_LLAMA3`. -/
def MODEL_LLAMA3 : String := "Llama-3-8B-Instruct-q4f16_1"

/-- Source `const MODEL_PHI3`. -/
def MODEL_PHI3 : String := "Phi-3-mini-4k-instruct-q4f16_1"

/-- The module-level variables, the DOM properties written by the modelled
functions, and the log of calls into the engine library. -/
structure State where
  -- MODEL + ENGINE SETUP
  currentModelId : String
  engine : Option Engine
  modelLoaded : Bool
  modelLoading : Bool
  -- DATA STORAGE
  aiCharacters : List Character
  activeCharacter : Option Character
  conversations : String → Option (List Message)
  personaProfile : PersonaProfile
  -- DOM
  /-- Source `elements.engineStatus.textContent` -/
  engineStatus : String
  /-- Source `elements.aiSettingsStatus.textContent` -/
  aiSettingsStatus : String
  /-- Source `elements.modelSelect.value` -/
  modelSelect : String
  /-- Source `elements.aiSettingsModelSelect.value` -/
  aiSettingsModelSelect : String
  /-- Source `elements.chatInput.value` -/
  chatInput : String
  /-- Source `elements.chatInput.disabled` -/
  chatInputDisabled : Bool
  /-- Source `elements.sendBtn.disabled` -/
  sendBtnDisabled : Bool
  /-- The `hidden` class of `elements.typingIndicator`. -/
  typingHidden : Bool
  /-- The children of `elements.chatLog`: class (role) and text of each `div`. -/
  chatLog : List (String × String)
  /-- Source `elements.activeCharacterName.textContent` -/
  activeCharacterName : String
  /-- Source `elements.activeCharacterByline.textContent` -/
  activeCharacterByline : String
  /-- The screen carrying the `active-screen` class. -/
  activeScreen : String
  -- calls into the engine library
  /-- Model id given to each `webllm.CreateMLCEngine` call, in call order. -/
  engineCreations : List String
  /-- The `loadModel` activations suspended at their `await`: position of the
  creation in `engineCreations` and the `modelId` argument. -/
  pendingLoads : List (Nat × String)
  /-- Each `engine.chat.completions.create` call, in call order. -/
  completionRequests : List CompletionRequest
  /-- The `sendMessage` activations suspended at their `await`: position of the
  request in `completionRequests`. -/
  pendingSends : List Nat
  /-- Number of calls of `generateAICharactersIfPossible`. -/
  aiGenerationRequests : Nat

/-! ## JS string helpers -/

/-- The code points `String.prototype.trim` strips (WhiteSpace and
LineTerminator of ECMA-262). -/
def isJsWhiteSpace (c : Char) : Bool :=
  let n := c.toNat
  n == 0x09 || n == 0x0A || n == 0x0B || n == 0x0C || n == 0x0D || n == 0x20 ||
  n == 0xA0 || n == 0x1680 || (0x2000 ≤ n && n ≤ 0x200A) || n == 0x2028 ||
  n == 0x2029 || n == 0x202F || n == 0x205F || n == 0x3000 || n == 0xFEFF

/-- Source `String.prototype.trim`. -/
def jsTrim (s : String) : String :=
  ⟨((s.data.dropWhile isJsWhiteSpace).reverse.dropWhile isJsWhiteSpace).reverse⟩

/-- Source `a || b` on strings: the empty string is the only falsy string. -/
def jsOr (a b : String) : String :=
  if a = "" then b else a

/-! ## Model loading -/

/-- Source `setEngineStatus(text)`. -/
def setEngineStatus (text : String) (s : State) : State :=
  { s with engineStatus := text }

/-- Source `loadModel(modelId)` up to its `await`: the flags are set, the status is
shown and `CreateMLCEngine` is called for `modelId`. -/
def loadModel (modelId : String) (s : State) : State :=
  let s := { s with modelLoading := true }
  let s := { s with modelLoaded := false }
  let s := setEngineStatus ("Loading " ++ modelId ++ "...") s
  { s with
    engineCreations := s.engineCreations ++ [modelId]
    pendingLoads := s.pendingLoads ++ [(s.engineCreations.length, modelId)] }

/-- Source `initProgressCallback(report)`: `if (report?.text) setEngineStatus(report.text)`. -/
def initProgressCallback (text : Option String) (s : State) : State :=
  match text with
  | some t => if t = "" then s else setEngineStatus t s
  | none => s

/-- Source `loadModel(modelId)` from the point where the `CreateMLCEngine` promise has
fulfilled with `handle`: the rest of the `try` block, then `finally`. -/
def loadModel_fulfilled (modelId : String) (handle : Engine) (s : State) : State :=
  let s := { s with engine := some handle }
  let s := { s with modelLoaded := true }
  let s := setEngineStatus ("Model ready â€” " ++ modelId) s
  let s := { s with aiSettingsStatus := "Active model: " ++ modelId }
  let s := { s with chatInputDisabled := false }
  let s := { s with sendBtnDisabled := false }
  let s := if s.aiCharacters.length = 0 then
      { s with aiGenerationRequests := s.aiGenerationRequests + 1 } else s
  { s with modelLoading := false }

/-- Source `loadModel(modelId)` from the point where the `CreateMLCEngine` promise has
rejected: the `catch` block, then `finally`. -/
def loadModel_rejected (s : State) : State :=
  let s := setEngineStatus "Failed to load model." s
  let s := { s with aiSettingsStatus := "Failed to load model." }
  { s with modelLoading := false }

/-- Source `ensureEngineLoaded()`. -/
def ensureEngineLoaded (s : State) : State :=
  if s.modelLoaded || s.modelLoading then s
  else loadModel s.currentModelId s

/-- Source `reloadModel(force = false)`. -/
def reloadModel (force : Bool) (s : State) : State :=
  if !force && !s.modelLoaded then ensureEngineLoaded s
  else
    let s := { s with engine := none }
    let s := { s with modelLoaded := false }
    loadModel s.currentModelId s

/-! ## Chat system -/

/-- Source `getConversationKey()`. -/
def getConversationKey (s : State) : String :=
  match s.activeCharacter with
  | some c => c.id
  | none => "global"

/-- Source `conversations[key] = value`. -/
def setConversation (conversations : String → Option (List Message))
    (key : String) (value : List Message) : String → Option (List Message) :=
  fun k => if k = key then some value else conversations k

/-- Source `getCurrentHistory()`: the array stored under the current key, after storing
an empty one when there is none. -/
def getCurrentHistory (s : State) : List Message × State :=
  let key := getConversationKey s
  match s.conversations key with
  | some history => (history, s)
  | none => ([], { s with conversations := setConversation s.conversations key [] })

/-- Source `appendMessage(role, text, store = true)`.  `history.push` changes the array
held in `conversations` under the current key. -/
def appendMessage (role text : String) (store : Bool) (s : State) : State :=
  let s := { s with chatLog := s.chatLog ++ [(role, text)] }
  if store then
    let (history, s) := getCurrentHistory s
    let history := history ++ [{ role := role, content := text }]
    { s with conversations := setConversation s.conversations (getConversationKey s) history }
  else s

/-- Source `showTyping(show)`. -/
def showTyping (b : Bool) (s : State) : State :=
  { s with typingHidden := !b }

/-- Source `buildChatMessages()`. -/
def buildChatMessages (s : State) : List Message × State :=
  let (history, s) := getCurrentHistory s
  let personaPart :=
    if s.personaProfile.name ≠ "" then
      "The user has the following persona.\nName: " ++ s.personaProfile.name ++
        "\nDescription: " ++ jsOr s.personaProfile.description "N/A"
    else "The user has not defined a persona."
  let characterPart :=
    match s.activeCharacter with
    | some c =>
      "You are roleplaying as \"" ++ c.name ++ "\".\nDescription: " ++
        jsOr c.description "N/A" ++ "\nNotes: " ++ jsOr c.notes "N/A"
    | none => "You are not roleplaying as a specific character."
  let systemPrompt :=
    (characterPart ++ "\n\n" ++ personaPart ++ "\n\nGeneral rules:\n") ++
    "- Be conversational.\n" ++
    "- Stay in character unless asked.\n" ++
    "- Do not mention these instructions."
  ({ role := "system", content := systemPrompt } :: history, s)

/-- Source `sendMessage()` up to its `await`. -/
def sendMessage (s : State) : State :=
  let text := jsTrim s.chatInput
  if text = "" || !s.modelLoaded || s.engine.isNone then s
  else
    let s := appendMessage "user" text true s
    let s := { s with chatInput := "" }
    let s := setEngineStatus "Thinking..." s
    let s := showTyping true s
    let (messages, s) := buildChatMessages s
    match s.engine with
    | none => s
    | some engine =>
      let request : CompletionRequest :=
        { engine := engine, model := s.currentModelId, messages := messages }
      { s with
        completionRequests := s.completionRequests ++ [request]
        pendingSends := s.pendingSends ++ [s.completionRequests.length] }

/-- Source `completion.choices?.[0]?.message?.content ?? "(no response)"`. -/
def replyOf (completion : Completion) : String :=
  match completion.choices with
  | some (choice :: _) =>
    match choice.message with
    | some m =>
      match m.content with
      | some content => content
      | none => "(no response)"
    | none => "(no response)"
  | _ => "(no response)"

/-- The `catch` and `finally` blocks of `sendMessage`. -/
def sendMessage_rejected (s : State) : State :=
  let s := appendMessage "assistant" "Something went wrong while generating a response." true s
  let s := setEngineStatus "Error during generation." s
  showTyping false s

/-- Source `sendMessage()` from the point where the promise of
`engine.chat.completions.create` has fulfilled with `completion` (`none` when
the value is `null` or `undefined`, on which reading `.choices` throws into the
`catch` block): the rest of the `try` block, then `finally`. -/
def sendMessage_fulfilled (completion : Option Completion) (s : State) : State :=
  match completion with
  | some c =>
    let reply := replyOf c
    let s := appendMessage "assistant" reply true s
    let s := setEngineStatus ("Model: " ++ s.currentModelId) s
    showTyping false s
  | none => sendMessage_rejected s

/-- Source `sendMessage()` from its `await` on, for either way the promise settles. -/
def sendMessage_settled (r : Settled (Option Completion)) (s : State) : State :=
  match r with
  | .fulfilled completion => sendMessage_fulfilled completion s
  | .rejected => sendMessage_rejected s

/-! ## Character selection, persona, model selectors -/

/-- Source `showScreen(id)`. -/
def showScreen (id : String) (s : State) : State :=
  { s with activeScreen := id }

/-- Source `selectCharacter(char)`. -/
def selectCharacter (char : Character) (s : State) : State :=
  let s := { s with activeCharacter := some char }
  let s := { s with activeCharacterName := char.name }
  let s := { s with activeCharacterByline := "Character by: " ++ jsOr char.by_ "Unknown" }
  let s := { s with chatLog := [] }
  let (history, s) := getCurrentHistory s
  let s := history.foldl (fun st msg => appendMessage msg.role msg.content false st) s
  let s := if history.length = 0 ∧ char.greeting ≠ "" then
      appendMessage "assistant" char.greeting true s else s
  let s := showScreen "chat" s
  ensureEngineLoaded s

/-- The click handler of `elements.savePersona`; the arguments are the values of
the two form fields and `elements.personaImagePreview.dataset.src`. -/
def savePersona (name description : String) (src : Option String) (s : State) : State :=
  let image := match src with
    | some v => if v = "" then none else some v
    | none => none
  let s := { s with personaProfile :=
    { name := jsTrim name, description := jsTrim description, image := image } }
  showScreen "home" s

/-- The `change` handler of `elements.modelSelect`, up to the end of
`reloadModel()`; nothing follows its `await`. -/
def modelSelectChange (value : String) (s : State) : State :=
  let s := { s with modelSelect := value }
  let s := { s with currentModelId := value }
  let s := { s with aiSettingsModelSelect := s.currentModelId }
  reloadModel false s

/-- The `change` handler of `elements.aiSettingsModelSelect`. -/
def aiSettingsModelSelectChange (value : String) (s : State) : State :=
  let s := { s with aiSettingsModelSelect := value }
  let s := { s with currentModelId := value }
  let s := { s with modelSelect := s.currentModelId }
  reloadModel false s

/-- The `click` handler of `elements.reloadModelBtn`. -/
def reloadModelClick (s : State) : State :=
  reloadModel true s

/-! ## Event loop -/

/-- What the browser can deliver to the script: a user action on one of the
controls, or the settling of a promise the script is awaiting. -/
inductive Event where
  | modelSelectChange (value : String)
  | aiSettingsModelSelectChange (value : String)
  | reloadModelClick
  /-- The user edits the chat input. -/
  | chatInputInput (value : String)
  /-- Click on the send button, or Enter in the chat input. -/
  | send
  | selectCharacter (char : Character)
  | savePersona (name description : String) (src : Option String)
  /-- The engine library reports progress on a creation that is under way. -/
  | initProgress (creation : Nat) (text : Option String)
  /-- The promise of the `creation`-th `CreateMLCEngine` call fulfils. -/
  | engineCreated (creation : Nat)
  /-- The promise of the `creation`-th `CreateMLCEngine` call rejects. -/
  | engineCreationFailed (creation : Nat)
  /-- The promise of the `request`-th completion call settles. -/
  | completionSettled (request : Nat) (r : Settled (Option Completion))
deriving DecidableEq, Repr

/-- One turn of the event loop; `none` when the event cannot occur in `s`
(a promise settles once, and only if it is being awaited). -/
def step (ev : Event) (s : State) : Option State :=
  match ev with
  | .modelSelectChange value => some (modelSelectChange value s)
  | .aiSettingsModelSelectChange value => some (aiSettingsModelSelectChange value s)
  | .reloadModelClick => some (reloadModelClick s)
  | .chatInputInput value => some { s with chatInput := value }
  | .send => some (sendMessage s)
  | .selectCharacter char => some (selectCharacter char s)
  | .savePersona name description src => some (savePersona name description src s)
  | .initProgress creation text =>
    match s.pendingLoads.lookup creation with
    | some _ => some (initProgressCallback text s)
    | none => none
  | .engineCreated creation =>
    match s.pendingLoads.lookup creation with
    | some modelId =>
      let s := { s with pendingLoads := s.pendingLoads.filter (fun p => p.1 ≠ creation) }
      some (loadModel_fulfilled modelId { creation := creation, model := modelId } s)
    | none => none
  | .engineCreationFailed creation =>
    match s.pendingLoads.lookup creation with
    | some _ =>
      let s := { s with pendingLoads := s.pendingLoads.filter (fun p => p.1 ≠ creation) }
      some (loadModel_rejected s)
    | none => none
  | .completionSettled request r =>
    if request ∈ s.pendingSends then
      let s := { s with pendingSends := s.pendingSends.filter (fun j => j ≠ request) }
      some (sendMessage_settled r s)
    else none

/-- The events of a list, delivered in order. -/
def run (evs : List Event) (s : State) : Option State :=
  match evs with
  | [] => some s
  | ev :: rest =>
    match step ev s with
    | some s' => run rest s'
    | none => none

/-- The state right after the script's module-level declarations: no engine,
nothing loading, no character, no conversation, no persona, no call made. The
DOM properties are whatever the page holds. -/
structure Initial (s : State) : Prop where
  currentModelId : s.currentModelId = MODEL_LLAMA3
  engine : s.engine = none
  modelLoaded : s.modelLoaded = false
  modelLoading : s.modelLoading = false
  aiCharacters : s.aiCharacters = []
  activeCharacter : s.activeCharacter = none
  conversations : s.conversations = fun _ => none
  personaProfile : s.personaProfile = { name := "", description := "", image := none }
  engineCreations : s.engineCreations = []
  pendingLoads : s.pendingLoads = []
  completionRequests : s.completionRequests = []
  pendingSends : s.pendingSends = []
  aiGenerationRequests : s.aiGenerationRequests = 0

/-- A concrete initial state: empty page texts, typing indicator hidden, the
home screen shown. -/
def initialState : State where
  currentModelId := MODEL_LLAMA3
  engine := none
  modelLoaded := false
  modelLoading := false
  aiCharacters := []
  activeCharacter := none
  conversations := fun _ => none
  personaProfile := { name := "", description := "", image := none }
  engineStatus := ""
  aiSettingsStatus := ""
  modelSelect := MODEL_LLAMA3
  aiSettingsModelSelect := MODEL_LLAMA3
  chatInput := ""
  chatInputDisabled := true
  sendBtnDisabled := true
  typingHidden := true
  chatLog := []
  activeCharacterName := ""
  activeCharacterByline := ""
  activeScreen := "home"
  engineCreations := []
  pendingLoads := []
  completionRequests := []
  pendingSends := []
  aiGenerationRequests := 0

/-- The states the script can be in between two turns of the event loop. -/
inductive Reachable : State → Prop where
  | initial {s : State} : Initial s → Reachable s
  | step {s s' : State} (ev : Event) : Reachable s → step ev s = some s' → Reachable s'

/-- The conversation stored under `key`, read as the empty one when there is
none (what `getCurrentHistory` returns for that key). -/
def historyOf (s : State) (key : String) : List Message :=
  (s.conversations key).getD []

/-- The key as a function of the active character alone
(`getConversationKey s = keyOf s.activeCharacter`). -/
def keyOf (active : Option Character) : String :=
  match active with
  | some c => c.id
  | none => "global"

/-- The model-readiness part of the state: `modelLoaded`, `modelLoading` and the
engine handle. -/
def readiness (s : State) : Bool × Bool × Option Engine :=
  (s.modelLoaded, s.modelLoading, s.engine)

/-! ## The specification's wording of the reply and of the instruction block -/

/-- The message content of the first choice of a completion, when there is one. -/
def firstChoiceContent (completion : Completion) : Option String :=
  match completion.choices with
  | none => none
  | some choices =>
    match choices.head? with
    | none => none
    | some choice =>
      match choice.message with
      | none => none
      | some m => m.content

/-- A field, replaced by `"N/A"` when it is empty. -/
def orNA (field : String) : String :=
  if field = "" then "N/A" else field

/-- The character clause of the instruction block. -/
def characterClause (active : Option Character) : String :=
  match active with
  | none => "You are not roleplaying as a specific character."
  | some c =>
    "You are roleplaying as \"" ++ c.name ++ "\".\nDescription: " ++ orNA c.description ++
      "\nNotes: " ++ orNA c.notes

/-- The persona clause of the instruction block. -/
def personaClause (persona : PersonaProfile) : String :=
  if persona.name = "" then "The user has not defined a persona."
  else
    "The user has the following persona.\nName: " ++ persona.name ++
      "\nDescription: " ++ orNA persona.description

/-- The fixed list of rules that ends the instruction block. -/
def rulesList : String :=
  "General rules:\n- Be conversational.\n- Stay in character unless asked.\n" ++
    "- Do not mention these instructions."

/-- The text of the assistant turn a settled generation leaves in the
conversation: the reply, or the fixed error message. -/
def assistantText (r : Settled (Option Completion)) : String :=
  match r with
  | .fulfilled (some c) => (firstChoiceContent c).getD "(no response)"
  | _ => "Something went wrong while generating a response."

/-! ## Concrete states used to exercise the theorems -/

/-- A character as the creation form builds it. -/
def alice : Character :=
  { id := "3f2b8c1e-0d4a-4c57-9e61-7a1b2c3d4e5f", name := "Alice", description := "",
    greeting := "", style := "", notes := "curious", by_ := "You", image := none }

/-- A second character, with another id. -/
def bob : Character :=
  { id := "9a7d6e5c-4b3a-4f21-8c0d-1e2f3a4b5c6d", name := "Bob", description := "A baker.",
    greeting := "", style := "", notes := "", by_ := "You", image := none }

/-- The state a list of events leads to from `initialState` (`initialState`
itself when one of the events cannot occur). -/
def after (evs : List Event) : State :=
  (run evs initialState).getD initialState

/-- Alice selected, the model loaded, `" hi "` typed into the chat input. -/
def readyWithInput : State :=
  after [.selectCharacter alice, .engineCreated 0, .chatInputInput " hi "]

/-- A completion with one choice whose message content is `"hello"`. -/
def helloCompletion : Completion :=
  { choices := some [{ message := some { content := some "hello" } }] }

/-! ## Predicates on states and events -/

/-- The lifecycle part of the state: the flags, the engine handle, the creations
requested so far and the loads awaiting one. -/
def lifecycle (s : State) :
    Bool × Bool × Option Engine × List String × List (Nat × String) :=
  (s.modelLoaded, s.modelLoading, s.engine, s.engineCreations, s.pendingLoads)

/-- The flags `modelLoading` and `modelLoaded` are not both set. -/
def FlagsExclusive (s : State) : Prop :=
  s.modelLoading = true → s.modelLoaded = false

/-- Every suspended load awaits a creation that has been requested. -/
def PendingInRange (s : State) : Prop :=
  ∀ p ∈ s.pendingLoads, p.1 < s.engineCreations.length

/-- The events that start a load whatever the flags, or settle one: the reload
button and the two ways a creation settles. -/
def Event.touchesLoad (ev : Event) : Bool :=
  match ev with
  | .reloadModelClick => true
  | .engineCreated _ => true
  | .engineCreationFailed _ => true
  | _ => false

/-- The events of the model controls: the two selectors and the reload button. -/
def Event.usesModelControl (ev : Event) : Bool :=
  match ev with
  | .modelSelectChange _ => true
  | .aiSettingsModelSelectChange _ => true
  | .reloadModelClick => true
  | _ => false

/-- The suspended loads and the installed handle are those of the creation log:
each names a creation that was requested, with the model id it was requested
for; and a set `modelLoaded` comes with a handle. -/
def HandlesLogged (s : State) : Prop :=
  (∀ p ∈ s.pendingLoads, s.engineCreations[p.1]? = some p.2) ∧
  (∀ h : Engine, s.engine = some h → s.engineCreations[h.creation]? = some h.model) ∧
  (s.modelLoaded = true → s.engine ≠ none)

/-- The states the script reaches when the model controls are used only while no
load is in flight. -/
inductive ReachableCalm : State → Prop where
  | initial {s : State} : Initial s → ReachableCalm s
  | step {s s' : State} (ev : Event) : ReachableCalm s →
      (ev.usesModelControl = true → s.pendingLoads = []) → step ev s = some s' →
      ReachableCalm s'

/-- At most one load is in flight, it is for the selected model id, and an
installed handle of a loaded model is for the selected model id. -/
def OneLoadAtATime (s : State) : Prop :=
  (s.modelLoading = true →
    s.modelLoaded = false ∧ ∃ i : Nat, s.pendingLoads = [(i, s.currentModelId)]) ∧
  (s.modelLoading = false → s.pendingLoads = []) ∧
  (s.modelLoaded = true → ∃ h : Engine, s.engine = some h ∧ h.model = s.currentModelId)

/-! ## Lemmas on the conversation store -/

theorem getConversationKey_eq (s : State) : getConversationKey s = keyOf s.activeCharacter := rfl

theorem setConversation_same (conv : String → Option (List Message)) (key : String)
    (v : List Message) : setConversation conv key v key = some v := by
  simp [setConversation]

theorem setConversation_other (conv : String → Option (List Message)) {key k : String}
    (v : List Message) (h : k ≠ key) : setConversation conv key v k = conv k := by
  simp [setConversation, h]

theorem setConversation_twice (conv : String → Option (List Message)) (key : String)
    (v w : List Message) :
    setConversation (setConversation conv key v) key w = setConversation conv key w := by
  funext k
  unfold setConversation
  split <;> rfl

theorem setConversation_self (conv : String → Option (List Message)) (key : String)
    (v : List Message) (h : conv key = some v) : setConversation conv key v = conv := by
  funext k
  unfold setConversation
  split
  · next hk => rw [hk, h]
  · rfl

theorem getCurrentHistory_eq (s : State) :
    getCurrentHistory s =
      (historyOf s (getConversationKey s),
        { s with
          conversations :=
            setConversation s.conversations (getConversationKey s)
              (historyOf s (getConversationKey s)) }) := by
  unfold getCurrentHistory historyOf
  cases h : s.conversations (getConversationKey s)
  · simp [h]
  · simp [h, setConversation_self _ _ _ h]

theorem appendMessage_eq (role text : String) (s : State) :
    appendMessage role text true s =
      { s with
        chatLog := s.chatLog ++ [(role, text)]
        conversations :=
          setConversation s.conversations (getConversationKey s)
            (historyOf s (getConversationKey s) ++ [{ role := role, content := text }]) } := by
  unfold appendMessage
  simp [getCurrentHistory_eq, getConversationKey_eq, historyOf, setConversation_twice]

/-! ## Lemmas on the send pipeline -/

theorem replyOf_eq (c : Completion) :
    replyOf c = (firstChoiceContent c).getD "(no response)" := by
  unfold replyOf firstChoiceContent
  rcases c with ⟨_ | _ | ⟨⟨_ | ⟨_ | _⟩⟩, _⟩⟩ <;> rfl

theorem sendMessage_eq (s : State) (e : Engine) (ht : jsTrim s.chatInput ≠ "")
    (hl : s.modelLoaded = true) (he : s.engine = some e) :
    sendMessage s =
      { s with
        chatLog := s.chatLog ++ [("user", jsTrim s.chatInput)]
        conversations :=
          setConversation s.conversations (getConversationKey s)
            (historyOf s (getConversationKey s) ++
              [{ role := "user", content := jsTrim s.chatInput }])
        chatInput := ""
        engineStatus := "Thinking..."
        typingHidden := false
        completionRequests := s.completionRequests ++
          [{ engine := e, model := s.currentModelId,
             messages := (buildChatMessages s).1 ++
               [{ role := "user", content := jsTrim s.chatInput }] }]
        pendingSends := s.pendingSends ++ [s.completionRequests.length] } := by
  unfold sendMessage
  simp [ht, hl, he, appendMessage_eq, setEngineStatus, showTyping, buildChatMessages,
    getCurrentHistory_eq, getConversationKey_eq, historyOf, setConversation_twice,
    setConversation_same]

theorem sendMessage_settled_eq (r : Settled (Option Completion)) (m : State) :
    sendMessage_settled r m =
      { m with
        chatLog := m.chatLog ++ [("assistant", assistantText r)]
        conversations :=
          setConversation m.conversations (getConversationKey m)
            (historyOf m (getConversationKey m) ++
              [{ role := "assistant", content := assistantText r }])
        engineStatus :=
          match r with
          | .fulfilled (some _) => "Model: " ++ m.currentModelId
          | _ => "Error during generation."
        typingHidden := true } := by
  rcases r with ⟨_ | c⟩ | _ <;>
    simp [sendMessage_settled, sendMessage_fulfilled, sendMessage_rejected, appendMessage_eq,
      setEngineStatus, showTyping, assistantText, replyOf_eq]

theorem sendMessage_eq_self (s : State)
    (h : jsTrim s.chatInput = "" ∨ s.modelLoaded = false ∨ s.engine = none) :
    sendMessage s = s := by
  unfold sendMessage
  rcases h with h | h | h <;> simp [h]

/-! ## The send pipeline: guards, success, failure -/

/-- C1: when the trimmed input is empty, or `modelLoaded` is false, or `engine`
is null, `sendMessage` returns the state it was given: no turn is appended to
any conversation, no completion is requested, and the conversation store, the
readiness flags and the engine handle are unchanged. -/
theorem sendMessage_guard_noop (s : State)
    (h : jsTrim s.chatInput = "" ∨ s.modelLoaded = false ∨ s.engine = none) :
    sendMessage s = s :=
  sendMessage_eq_self s h

/-- Whitespace typed into the chat input of a ready session: the send changes
nothing. -/
theorem sendMessage_guard_noop_witness :
    jsTrim (after [.selectCharacter alice, .engineCreated 0,
      .chatInputInput "  \n "]).chatInput = "" ∧
    (after [.selectCharacter alice, .engineCreated 0, .chatInputInput "  \n "]).modelLoaded
      = true ∧
    sendMessage (after [.selectCharacter alice, .engineCreated 0, .chatInputInput "  \n "]) =
      after [.selectCharacter alice, .engineCreated 0, .chatInputInput "  \n "] :=
  ⟨by decide, by decide, sendMessage_guard_noop _ (Or.inl (by decide))⟩

/-- C2, as amended: a send with non-empty trimmed text `t` in a ready state `s`,
whose generation fulfils with a completion `c` in a state `m` in which the
active character is the one of `s` and the conversation of the current key is
as the send left it (no other turn was appended to it while the generation was
in flight), leaves the conversation of the current key equal to its previous
contents followed by the user turn `t` and then the assistant turn `r`, where
`r` is the message content of the first choice of `c`, or `"(no response)"`
when there is none. The send requests exactly one completion (on the installed
handle, for the selected model, with the instruction block followed by the
history including `t`), and settling requests none. -/
theorem sendMessage_appends_user_then_reply (s m : State) (e : Engine) (c : Completion)
    (ht : jsTrim s.chatInput ≠ "") (hl : s.modelLoaded = true) (he : s.engine = some e)
    (hchar : m.activeCharacter = s.activeCharacter)
    (hconv : historyOf m (getConversationKey s) =
      historyOf (sendMessage s) (getConversationKey s)) :
    historyOf (sendMessage_settled (.fulfilled (some c)) m) (getConversationKey s) =
        historyOf s (getConversationKey s) ++
          [{ role := "user", content := jsTrim s.chatInput },
           { role := "assistant", content := (firstChoiceContent c).getD "(no response)" }] ∧
    (sendMessage s).completionRequests = s.completionRequests ++
        [{ engine := e, model := s.currentModelId,
           messages := (buildChatMessages s).1 ++
             [{ role := "user", content := jsTrim s.chatInput }] }] ∧
    (sendMessage_settled (.fulfilled (some c)) m).completionRequests = m.completionRequests := by
  have hkey : getConversationKey m = getConversationKey s := by
    rw [getConversationKey_eq, getConversationKey_eq, hchar]
  have hsend : historyOf (sendMessage s) (getConversationKey s) =
      historyOf s (getConversationKey s) ++
        [{ role := "user", content := jsTrim s.chatInput }] := by
    rw [sendMessage_eq s e ht hl he]
    simp [historyOf, setConversation_same]
  refine ⟨?_, ?_, ?_⟩
  · rw [sendMessage_settled_eq, hkey, hconv, hsend]
    simp [historyOf, setConversation_same, assistantText]
  · rw [sendMessage_eq s e ht hl he]
  · rw [sendMessage_settled_eq]

/-- Alice selected, the model loaded, `" hi "` sent and answered with `"hello"`. -/
theorem sendMessage_appends_user_then_reply_witness :
    jsTrim readyWithInput.chatInput ≠ "" ∧ readyWithInput.modelLoaded = true ∧
    readyWithInput.engine = some { creation := 0, model := MODEL_LLAMA3 } ∧
    historyOf (sendMessage_settled (.fulfilled (some helloCompletion)) (sendMessage readyWithInput))
        alice.id =
      [{ role := "user", content := "hi" }, { role := "assistant", content := "hello" }] ∧
    (sendMessage readyWithInput).completionRequests.length = 1 :=
  have h := sendMessage_appends_user_then_reply readyWithInput (sendMessage readyWithInput)
    { creation := 0, model := MODEL_LLAMA3 } helloCompletion (by decide) (by decide) (by decide)
    (by decide) rfl
  ⟨by decide, by decide, by decide, h.1, by rw [h.2.1]; rfl⟩

/-- C2 fails as stated: with Alice selected, the model loaded and her
conversation empty, `" hi "` is sent, `"again"` is sent while that generation
is in flight, and the first generation then fulfils with `"hello"`. Alice is the
active character throughout, yet her conversation ends as user `"hi"`, user
`"again"`, assistant `"hello"`: the reply does not directly follow the user
turn of its send. -/
theorem reply_follows_interleaved_user_turn :
    (run [.selectCharacter alice, .engineCreated 0, .chatInputInput " hi "]
        initialState).map
      (fun s => (s.modelLoaded, jsTrim s.chatInput, s.conversations alice.id)) =
      some (true, "hi", some []) ∧
    (run [.selectCharacter alice, .engineCreated 0, .chatInputInput " hi ", .send,
        .chatInputInput "again", .send] initialState).map
      (fun s => (s.activeCharacter, s.pendingSends)) = some (some alice, [0, 1]) ∧
    (run [.selectCharacter alice, .engineCreated 0, .chatInputInput " hi ", .send,
        .chatInputInput "again", .send,
        .completionSettled 0 (.fulfilled (some helloCompletion))] initialState).map
      (fun s => (s.activeCharacter, s.conversations alice.id)) =
      some (some alice,
        some [{ role := "user", content := "hi" }, { role := "user", content := "again" },
              { role := "assistant", content := "hello" }]) := by
  decide

/-- C3, as amended: a send with non-empty trimmed text `t` in a ready state `s`,
whose generation rejects in a state `m` in which the active character is the
one of `s` and the conversation of the current key is as the send left it (no
other turn was appended to it while the generation was in flight), leaves the
conversation of the current key equal to its previous contents followed by one
user turn `t` and one assistant turn with the fixed text
`"Something went wrong while generating a response."`; the engine status becomes
`"Error during generation."`; and neither the send nor its `catch` block changes
`modelLoaded`, `modelLoading` or the engine handle. -/
theorem sendMessage_generation_failure (s m : State) (e : Engine)
    (ht : jsTrim s.chatInput ≠ "") (hl : s.modelLoaded = true) (he : s.engine = some e)
    (hchar : m.activeCharacter = s.activeCharacter)
    (hconv : historyOf m (getConversationKey s) =
      historyOf (sendMessage s) (getConversationKey s)) :
    historyOf (sendMessage_settled .rejected m) (getConversationKey s) =
        historyOf s (getConversationKey s) ++
          [{ role := "user", content := jsTrim s.chatInput },
           { role := "assistant",
             content := "Something went wrong while generating a response." }] ∧
    (sendMessage_settled .rejected m).engineStatus = "Error during generation." ∧
    readiness (sendMessage s) = readiness s ∧
    readiness (sendMessage_settled .rejected m) = readiness m := by
  have hkey : getConversationKey m = getConversationKey s := by
    rw [getConversationKey_eq, getConversationKey_eq, hchar]
  have hsend : historyOf (sendMessage s) (getConversationKey s) =
      historyOf s (getConversationKey s) ++
        [{ role := "user", content := jsTrim s.chatInput }] := by
    rw [sendMessage_eq s e ht hl he]
    simp [historyOf, setConversation_same]
  refine ⟨?_, ?_, ?_, ?_⟩
  · rw [sendMessage_settled_eq, hkey, hconv, hsend]
    simp [historyOf, setConversation_same, assistantText]
  · rw [sendMessage_settled_eq]
  · rw [sendMessage_eq s e ht hl he]
    rfl
  · rw [sendMessage_settled_eq]
    rfl

/-- Alice selected, the model loaded, `" hi "` sent, the generation rejected. -/
theorem sendMessage_generation_failure_witness :
    jsTrim readyWithInput.chatInput ≠ "" ∧ readyWithInput.modelLoaded = true ∧
    readyWithInput.engine = some { creation := 0, model := MODEL_LLAMA3 } ∧
    historyOf (sendMessage_settled .rejected (sendMessage readyWithInput)) alice.id =
      [{ role := "user", content := "hi" },
       { role := "assistant", content := "Something went wrong while generating a response." }] ∧
    readiness (sendMessage_settled .rejected (sendMessage readyWithInput)) =
      (true, false, some { creation := 0, model := MODEL_LLAMA3 }) :=
  have h := sendMessage_generation_failure readyWithInput (sendMessage readyWithInput)
    { creation := 0, model := MODEL_LLAMA3 } (by decide) (by decide) (by decide) (by decide) rfl
  ⟨by decide, by decide, by decide, h.1, by rw [h.2.2.2, h.2.2.1]; rfl⟩

/-- C3 fails as stated: with Alice selected, the model loaded and her
conversation empty, `" hi "` is sent and the generation rejects. When Bob is
selected while the generation is in flight, the fixed error turn is stored in
Bob's conversation and Alice's holds the user turn alone. When instead `"again"`
is sent while the generation is in flight, Alice's conversation ends as user
`"hi"`, user `"again"`, and the error turn. -/
theorem error_turn_misses_its_user_turn :
    (run [.selectCharacter alice, .engineCreated 0, .chatInputInput " hi "]
        initialState).map
      (fun s => (s.modelLoaded, jsTrim s.chatInput, s.conversations alice.id)) =
      some (true, "hi", some []) ∧
    (run [.selectCharacter alice, .engineCreated 0, .chatInputInput " hi ", .send,
        .selectCharacter bob, .completionSettled 0 .rejected] initialState).map
      (fun s => (s.conversations alice.id, s.conversations bob.id, s.engineStatus)) =
      some (some [{ role := "user", content := "hi" }],
        some [{ role := "assistant",
                content := "Something went wrong while generating a response." }],
        "Error during generation.") ∧
    (run [.selectCharacter alice, .engineCreated 0, .chatInputInput " hi ", .send,
        .chatInputInput "again", .send, .completionSettled 0 .rejected] initialState).map
      (fun s => (s.activeCharacter, s.conversations alice.id)) =
      some (some alice,
        some [{ role := "user", content := "hi" }, { role := "user", content := "again" },
              { role := "assistant",
                content := "Something went wrong while generating a response." }]) := by
  decide

/-! ## The prompt composer -/

theorem jsOr_NA (x : String) : jsOr x "N/A" = orNA x := rfl

/-- C4: `buildChatMessages` returns a system-role turn followed by the whole
history of the current key, in order and unmodified, hence `|h| + 1` turns. The
content of the system turn is the character clause, a blank line, the persona
clause, a blank line and the fixed rules list; the character clause is the fixed
sentence when no character is active and otherwise names the character, with
description and notes each replaced by `"N/A"` when empty; the persona clause is
the fixed sentence when the persona name is empty and otherwise gives name and
description, an empty description replaced by `"N/A"`. -/
theorem buildChatMessages_system_then_history (s : State) :
    (buildChatMessages s).1 =
        { role := "system",
          content := characterClause s.activeCharacter ++ "\n\n" ++
            personaClause s.personaProfile ++ "\n\n" ++ rulesList } ::
          historyOf s (getConversationKey s) ∧
    (buildChatMessages s).1.length = (historyOf s (getConversationKey s)).length + 1 ∧
    characterClause none = "You are not roleplaying as a specific character." ∧
    (∀ c : Character, characterClause (some c) =
      "You are roleplaying as \"" ++ c.name ++ "\".\nDescription: " ++
        (if c.description = "" then "N/A" else c.description) ++ "\nNotes: " ++
        (if c.notes = "" then "N/A" else c.notes)) ∧
    (∀ p : PersonaProfile, p.name = "" →
      personaClause p = "The user has not defined a persona.") ∧
    (∀ p : PersonaProfile, p.name ≠ "" →
      personaClause p = "The user has the following persona.\nName: " ++ p.name ++
        "\nDescription: " ++ (if p.description = "" then "N/A" else p.description)) := by
  have hmain : (buildChatMessages s).1 =
        { role := "system",
          content := characterClause s.activeCharacter ++ "\n\n" ++
            personaClause s.personaProfile ++ "\n\n" ++ rulesList } ::
          historyOf s (getConversationKey s) := by
    unfold buildChatMessages
    simp only [getCurrentHistory_eq, jsOr_NA]
    congr 2
    unfold characterClause personaClause rulesList
    cases s.activeCharacter <;> by_cases hp : s.personaProfile.name = "" <;>
      simp [hp, String.append_assoc]
  refine ⟨hmain, by rw [hmain]; rfl, rfl, fun c => rfl, ?_, ?_⟩
  · intro p hp
    simp [personaClause, hp]
  · intro p hp
    simp [personaClause, hp, orNA]

/-- Alice active with `"hi"` in her conversation, no persona defined: the
request is the instruction block followed by the one stored turn; a persona
named `"Sam"` with no description gets the `"N/A"` placeholder. -/
theorem buildChatMessages_system_then_history_witness :
    (buildChatMessages (sendMessage readyWithInput)).1 =
      [{ role := "system",
         content := "You are roleplaying as \"Alice\".\nDescription: N/A\nNotes: curious\n\n" ++
           "The user has not defined a persona.\n\n" ++
           "General rules:\n- Be conversational.\n- Stay in character unless asked.\n" ++
           "- Do not mention these instructions." },
       { role := "user", content := "hi" }] ∧
    personaClause { name := "Sam", description := "", image := none } =
      "The user has the following persona.\nName: Sam\nDescription: N/A" :=
  have h := buildChatMessages_system_then_history (sendMessage readyWithInput)
  ⟨h.1.trans rfl,
    (h.2.2.2.2.2 { name := "Sam", description := "", image := none } (by decide)).trans rfl⟩

/-! ## The conversation store -/

/-- A value of `crypto.randomUUID()` has 36 characters, so it is not the global
key. -/
theorem ne_global_of_length (id : String) (h : id.length = 36) : id ≠ "global" := by
  intro hid
  rw [hid] at h
  revert h
  decide

/-- C5: the conversation key is the active character's id when a character is
active and `"global"` otherwise; `getCurrentHistory` returns the array stored
under that key, or stores and returns a new empty one when there is none,
touching no other key; and appending a turn while character `A` is active makes
the history of `A`'s key its old contents followed by that turn and leaves the
conversation of every other key unchanged, in particular that of a character
`B` with another id, and that of the global key: character ids are the values
of `crypto.randomUUID()`, none of which is the string `"global"`. -/
theorem conversation_store_pointwise (s : State) (A B : Character) (role text : String)
    (hact : s.activeCharacter = some A) (hAB : A.id ≠ B.id) :
    getConversationKey s = A.id ∧
    (∀ t : State, t.activeCharacter = none → getConversationKey t = "global") ∧
    (∀ (t : State) (h : List Message), t.conversations (getConversationKey t) = some h →
      getCurrentHistory t = (h, t)) ∧
    (∀ t : State, t.conversations (getConversationKey t) = none →
      (getCurrentHistory t).1 = [] ∧
      (getCurrentHistory t).2.conversations (getConversationKey t) = some [] ∧
      ∀ k, k ≠ getConversationKey t →
        (getCurrentHistory t).2.conversations k = t.conversations k) ∧
    historyOf (appendMessage role text true s) A.id =
      historyOf s A.id ++ [{ role := role, content := text }] ∧
    (appendMessage role text true s).conversations B.id = s.conversations B.id ∧
    (A.id ≠ "global" →
      (appendMessage role text true s).conversations "global" = s.conversations "global") ∧
    (∀ k, k ≠ A.id →
      (appendMessage role text true s).conversations k = s.conversations k) := by
  have hkey : getConversationKey s = A.id := by
    simp [getConversationKey, hact]
  have hframe : ∀ k, k ≠ A.id →
      (appendMessage role text true s).conversations k = s.conversations k := by
    intro k hk
    simp [appendMessage_eq, hkey, setConversation_other _ _ hk]
  refine ⟨hkey, ?_, ?_, ?_, ?_, hframe _ (Ne.symm hAB),
    fun hA => hframe _ (Ne.symm hA), hframe⟩
  · intro t ht
    simp [getConversationKey, ht]
  · intro t h ht
    simp [getCurrentHistory, ht]
  · intro t ht
    refine ⟨by simp [getCurrentHistory, ht],
      by simp [getCurrentHistory, ht, setConversation], ?_⟩
    intro k hk
    simp [getCurrentHistory, ht, setConversation, hk]
  · simp [appendMessage_eq, hkey, historyOf, setConversation_same]

/-- Alice active, Bob not: a turn appended lands in Alice's conversation only. -/
theorem conversation_store_pointwise_witness :
    (after [.selectCharacter alice]).activeCharacter = some alice ∧ alice.id ≠ bob.id ∧
    alice.id ≠ "global" ∧
    historyOf (appendMessage "user" "hi" true (after [.selectCharacter alice])) alice.id =
      [{ role := "user", content := "hi" }] ∧
    (appendMessage "user" "hi" true (after [.selectCharacter alice])).conversations bob.id
      = none ∧
    (appendMessage "user" "hi" true (after [.selectCharacter alice])).conversations "global"
      = none :=
  have h := conversation_store_pointwise (after [.selectCharacter alice]) alice bob "user" "hi"
    (by decide) (by decide)
  ⟨by decide, by decide, by decide, h.2.2.2.2.1, h.2.2.2.2.2.1, h.2.2.2.2.2.2.1 (by decide)⟩

/-! ## Lemmas on character selection -/

theorem render_history (history : List Message) (s : State) :
    history.foldl (fun st msg => appendMessage msg.role msg.content false st) s =
      { s with chatLog := s.chatLog ++ history.map (fun msg => (msg.role, msg.content)) } := by
  induction history generalizing s with
  | nil => simp
  | cons msg rest ih =>
    rw [List.foldl_cons, ih]
    simp [appendMessage]

theorem selectCharacter_eq (char : Character) (s : State) :
    selectCharacter char s =
      ensureEngineLoaded
        { s with
          activeCharacter := some char
          activeCharacterName := char.name
          activeCharacterByline := "Character by: " ++ jsOr char.by_ "Unknown"
          chatLog :=
            (historyOf s char.id).map (fun msg => (msg.role, msg.content)) ++
              (if (historyOf s char.id).length = 0 ∧ char.greeting ≠ "" then
                [("assistant", char.greeting)] else [])
          conversations :=
            setConversation s.conversations char.id (historyOf s char.id ++
              (if (historyOf s char.id).length = 0 ∧ char.greeting ≠ "" then
                [{ role := "assistant", content := char.greeting }] else []))
          activeScreen := "chat" } := by
  unfold selectCharacter
  simp only [getCurrentHistory_eq, render_history]
  by_cases h1 : (s.conversations char.id).getD [] = [] <;> by_cases h2 : char.greeting = "" <;>
    simp [h1, h2, appendMessage_eq, getConversationKey_eq, keyOf, historyOf, setConversation_twice,
      setConversation_same, showScreen]

/-! ## Lemmas on the lifecycle -/

theorem lifecycle_flags {s t : State} (h : lifecycle t = lifecycle s) :
    t.modelLoaded = s.modelLoaded ∧ t.modelLoading = s.modelLoading ∧ t.engine = s.engine ∧
    t.engineCreations = s.engineCreations ∧ t.pendingLoads = s.pendingLoads := by
  simpa [lifecycle] using h

theorem sendMessage_lifecycle (s : State) : lifecycle (sendMessage s) = lifecycle s := by
  by_cases hg : jsTrim s.chatInput = "" ∨ s.modelLoaded = false ∨ s.engine = none
  · rw [sendMessage_eq_self s hg]
  · have ht : jsTrim s.chatInput ≠ "" := fun h => hg (Or.inl h)
    have hl : s.modelLoaded = true := by
      cases h : s.modelLoaded
      · exact absurd (Or.inr (Or.inl h)) hg
      · rfl
    cases he : s.engine with
    | none => exact absurd (Or.inr (Or.inr he)) hg
    | some e =>
      rw [sendMessage_eq s e ht hl he]
      simp [lifecycle, he]

theorem sendMessage_settled_lifecycle (r : Settled (Option Completion)) (s : State) :
    lifecycle (sendMessage_settled r s) = lifecycle s := by
  rw [sendMessage_settled_eq]
  rfl

theorem ensureEngineLoaded_of_loading {s : State} (h : s.modelLoading = true) :
    ensureEngineLoaded s = s := by
  simp [ensureEngineLoaded, h]

theorem reloadModel_of_loading {s : State} (h : s.modelLoading = true)
    (h' : s.modelLoaded = false) : reloadModel false s = s := by
  simp [reloadModel, h', ensureEngineLoaded_of_loading h]

theorem selectCharacter_lifecycle (char : Character) {s : State} (h : s.modelLoading = true) :
    lifecycle (selectCharacter char s) = lifecycle s := by
  rw [selectCharacter_eq, ensureEngineLoaded_of_loading (by exact h)]
  rfl

theorem step_lifecycle_of_loading {ev : Event} {s s' : State} (hev : ev.touchesLoad = false)
    (h : s.modelLoading = true) (h' : s.modelLoaded = false) (hs : step ev s = some s') :
    lifecycle s' = lifecycle s := by
  cases ev with
  | modelSelectChange value =>
    simp only [step, Option.some.injEq] at hs
    subst hs
    unfold modelSelectChange
    rw [reloadModel_of_loading (by exact h) (by exact h')]
    rfl
  | aiSettingsModelSelectChange value =>
    simp only [step, Option.some.injEq] at hs
    subst hs
    unfold aiSettingsModelSelectChange
    rw [reloadModel_of_loading (by exact h) (by exact h')]
    rfl
  | reloadModelClick => simp [Event.touchesLoad] at hev
  | chatInputInput value =>
    simp only [step, Option.some.injEq] at hs
    subst hs
    rfl
  | send =>
    simp only [step, Option.some.injEq] at hs
    subst hs
    exact sendMessage_lifecycle s
  | selectCharacter char =>
    simp only [step, Option.some.injEq] at hs
    subst hs
    exact selectCharacter_lifecycle char h
  | savePersona name description src =>
    simp only [step, Option.some.injEq] at hs
    subst hs
    rfl
  | initProgress creation text =>
    simp only [step] at hs
    split at hs
    · simp only [Option.some.injEq] at hs
      subst hs
      unfold initProgressCallback
      split
      · split <;> rfl
      · rfl
    · simp at hs
  | engineCreated creation => simp [Event.touchesLoad] at hev
  | engineCreationFailed creation => simp [Event.touchesLoad] at hev
  | completionSettled request r =>
    simp only [step] at hs
    split at hs
    · simp only [Option.some.injEq] at hs
      subst hs
      rw [sendMessage_settled_lifecycle]
      rfl
    · simp at hs

theorem run_lifecycle_of_loading {evs : List Event} {s s' : State}
    (hev : ∀ ev ∈ evs, ev.touchesLoad = false)
    (h : s.modelLoading = true) (h' : s.modelLoaded = false) (hs : run evs s = some s') :
    lifecycle s' = lifecycle s := by
  induction evs generalizing s with
  | nil =>
    simp only [run, Option.some.injEq] at hs
    rw [hs]
  | cons ev rest ih =>
    simp only [run] at hs
    cases hstep : step ev s with
    | none => simp [hstep] at hs
    | some t =>
      rw [hstep] at hs
      have ht := step_lifecycle_of_loading (hev ev (List.mem_cons_self _ _)) h h' hstep
      have hf := lifecycle_flags ht
      have := ih (fun e he => hev e (List.mem_cons_of_mem _ he)) (hf.2.1.trans h)
        (hf.1.trans h') hs
      rw [this, ht]


/-! ## Invariants of the reachable states -/

theorem loadModel_fulfilled_eq (modelId : String) (handle : Engine) (s : State) :
    loadModel_fulfilled modelId handle s =
      { s with
        engine := some handle
        modelLoaded := true
        engineStatus := "Model ready â€” " ++ modelId
        aiSettingsStatus := "Active model: " ++ modelId
        chatInputDisabled := false
        sendBtnDisabled := false
        aiGenerationRequests :=
          if s.aiCharacters.length = 0 then s.aiGenerationRequests + 1
          else s.aiGenerationRequests
        modelLoading := false } := by
  unfold loadModel_fulfilled
  by_cases h : s.aiCharacters = [] <;> simp [h, setEngineStatus]

theorem flagsExclusive_of_lifecycle {s t : State} (h : lifecycle t = lifecycle s)
    (hs : FlagsExclusive s) : FlagsExclusive t := by
  have hf := lifecycle_flags h
  intro ht
  rw [hf.1]
  exact hs (hf.2.1 ▸ ht)

theorem pendingInRange_of_lifecycle {s t : State} (h : lifecycle t = lifecycle s)
    (hs : PendingInRange s) : PendingInRange t := by
  have hf := lifecycle_flags h
  intro p hp
  rw [hf.2.2.2.1]
  exact hs p (hf.2.2.2.2 ▸ hp)

theorem loadModel_pendingInRange (modelId : String) {s : State} (hs : PendingInRange s) :
    PendingInRange (loadModel modelId s) := by
  intro p hp
  simp only [loadModel, setEngineStatus, List.mem_append, List.mem_singleton,
    List.length_append, List.length_singleton] at hp ⊢
  rcases hp with hp | hp
  · exact Nat.lt_succ_of_lt (hs p hp)
  · rw [hp]
    exact Nat.lt_succ_self _

theorem ensureEngineLoaded_flagsExclusive {s : State} (h : FlagsExclusive s) :
    FlagsExclusive (ensureEngineLoaded s) := by
  unfold ensureEngineLoaded
  split
  · exact h
  · intro _; rfl

theorem ensureEngineLoaded_pendingInRange {s : State} (h : PendingInRange s) :
    PendingInRange (ensureEngineLoaded s) := by
  unfold ensureEngineLoaded
  split
  · exact h
  · exact loadModel_pendingInRange _ h

theorem reloadModel_flagsExclusive (force : Bool) {s : State} (h : FlagsExclusive s) :
    FlagsExclusive (reloadModel force s) := by
  unfold reloadModel
  split
  · exact ensureEngineLoaded_flagsExclusive h
  · intro _; rfl

theorem reloadModel_pendingInRange (force : Bool) {s : State} (h : PendingInRange s) :
    PendingInRange (reloadModel force s) := by
  unfold reloadModel
  split
  · exact ensureEngineLoaded_pendingInRange h
  · exact @loadModel_pendingInRange _ { s with engine := none, modelLoaded := false } h

theorem step_invariant {ev : Event} {s s' : State} (hs : step ev s = some s')
    (h : FlagsExclusive s ∧ PendingInRange s) : FlagsExclusive s' ∧ PendingInRange s' := by
  obtain ⟨hf, hp⟩ := h
  cases ev with
  | modelSelectChange value =>
    simp only [step, Option.some.injEq] at hs
    subst hs
    unfold modelSelectChange
    exact ⟨reloadModel_flagsExclusive false (by exact hf),
      reloadModel_pendingInRange false (by exact hp)⟩
  | aiSettingsModelSelectChange value =>
    simp only [step, Option.some.injEq] at hs
    subst hs
    unfold aiSettingsModelSelectChange
    exact ⟨reloadModel_flagsExclusive false (by exact hf),
      reloadModel_pendingInRange false (by exact hp)⟩
  | reloadModelClick =>
    simp only [step, Option.some.injEq] at hs
    subst hs
    exact ⟨reloadModel_flagsExclusive true hf, reloadModel_pendingInRange true hp⟩
  | chatInputInput value =>
    simp only [step, Option.some.injEq] at hs
    subst hs
    exact ⟨hf, hp⟩
  | send =>
    simp only [step, Option.some.injEq] at hs
    subst hs
    exact ⟨flagsExclusive_of_lifecycle (sendMessage_lifecycle s) hf,
      pendingInRange_of_lifecycle (sendMessage_lifecycle s) hp⟩
  | selectCharacter char =>
    simp only [step, Option.some.injEq] at hs
    subst hs
    rw [selectCharacter_eq]
    exact ⟨ensureEngineLoaded_flagsExclusive (by exact hf),
      ensureEngineLoaded_pendingInRange (by exact hp)⟩
  | savePersona name description src =>
    simp only [step, Option.some.injEq] at hs
    subst hs
    exact ⟨hf, hp⟩
  | initProgress creation text =>
    simp only [step] at hs
    split at hs
    · simp only [Option.some.injEq] at hs
      subst hs
      unfold initProgressCallback
      split
      · split
        · exact ⟨hf, hp⟩
        · exact ⟨hf, hp⟩
      · exact ⟨hf, hp⟩
    · simp at hs
  | engineCreated creation =>
    simp only [step] at hs
    split at hs
    · simp only [Option.some.injEq] at hs
      subst hs
      rw [loadModel_fulfilled_eq]
      refine ⟨fun h => by simp at h, ?_⟩
      intro p hp'
      exact hp p (List.mem_of_mem_filter hp')
    · simp at hs
  | engineCreationFailed creation =>
    simp only [step] at hs
    split at hs
    · simp only [Option.some.injEq] at hs
      subst hs
      refine ⟨fun h => by simp [loadModel_rejected, setEngineStatus] at h, ?_⟩
      intro p hp'
      exact hp p (List.mem_of_mem_filter hp')
    · simp at hs
  | completionSettled request r =>
    simp only [step] at hs
    split at hs
    · simp only [Option.some.injEq] at hs
      subst hs
      exact ⟨flagsExclusive_of_lifecycle (sendMessage_settled_lifecycle r _) hf,
        pendingInRange_of_lifecycle (sendMessage_settled_lifecycle r _) hp⟩
    · simp at hs

theorem reachable_invariant {s : State} (h : Reachable s) :
    FlagsExclusive s ∧ PendingInRange s := by
  induction h with
  | initial hi =>
    refine ⟨fun hl => hi.modelLoaded, ?_⟩
    intro p hp
    rw [hi.pendingLoads] at hp
    simp at hp
  | step ev _ hs ih => exact step_invariant hs ih

theorem initialState_initial : Initial initialState :=
  ⟨rfl, rfl, rfl, rfl, rfl, rfl, rfl, rfl, rfl, rfl, rfl, rfl, rfl⟩

/-! ## The model lifecycle -/

/-- C6: in every reachable state in which `modelLoading` is set, a call of
`ensureEngineLoaded` and a non-forced call of `reloadModel` return the state
they were given: no engine creation is requested and `modelLoaded`,
`modelLoading` and the engine handle are unchanged. The same holds where the
script makes these calls, in the two model selectors (after the selected model
id has been written) and in `selectCharacter`. From a state with neither
flag set, `ensureEngineLoaded` requests one creation, for the selected model,
and sets `modelLoading`; a second call right after it changes nothing, so the
two calls together request exactly one creation. -/
theorem loading_absorbs_load_requests (s : State) (hr : Reachable s)
    (hl : s.modelLoading = true) :
    ensureEngineLoaded s = s ∧ reloadModel false s = s ∧
    (∀ value : String, lifecycle (modelSelectChange value s) = lifecycle s ∧
      lifecycle (aiSettingsModelSelectChange value s) = lifecycle s) ∧
    (∀ char : Character, lifecycle (selectCharacter char s) = lifecycle s) ∧
    (∀ t : State, t.modelLoaded = false → t.modelLoading = false →
      (ensureEngineLoaded t).modelLoading = true ∧
      (ensureEngineLoaded t).engineCreations = t.engineCreations ++ [t.currentModelId] ∧
      ensureEngineLoaded (ensureEngineLoaded t) = ensureEngineLoaded t ∧
      (ensureEngineLoaded (ensureEngineLoaded t)).engineCreations =
        t.engineCreations ++ [t.currentModelId]) := by
  have hinv := reachable_invariant hr
  refine ⟨ensureEngineLoaded_of_loading hl, reloadModel_of_loading hl (hinv.1 hl),
    fun value =>
      ⟨@step_lifecycle_of_loading (.modelSelectChange value) s _ rfl hl (hinv.1 hl) rfl,
        @step_lifecycle_of_loading (.aiSettingsModelSelectChange value) s _ rfl hl (hinv.1 hl)
          rfl⟩,
    fun char => selectCharacter_lifecycle char hl, ?_⟩
  intro t h1 h2
  have hload : ensureEngineLoaded t = loadModel t.currentModelId t := by
    simp [ensureEngineLoaded, h1, h2]
  have htwice : ensureEngineLoaded (ensureEngineLoaded t) = ensureEngineLoaded t :=
    ensureEngineLoaded_of_loading (by rw [hload]; rfl)
  refine ⟨by rw [hload]; rfl, by rw [hload]; rfl, htwice, ?_⟩
  rw [htwice, hload]
  rfl

/-- The first load is in flight after Alice has been selected in the initial
state; two calls of `ensureEngineLoaded` in the initial state request one
creation. -/
theorem loading_absorbs_load_requests_witness :
    (after [.selectCharacter alice]).modelLoading = true ∧
    ensureEngineLoaded (after [.selectCharacter alice]) = after [.selectCharacter alice] ∧
    reloadModel false (after [.selectCharacter alice]) = after [.selectCharacter alice] ∧
    (ensureEngineLoaded (ensureEngineLoaded initialState)).engineCreations = [ MODEL_LLAMA3 ] :=
  have h := loading_absorbs_load_requests (after [.selectCharacter alice])
    (Reachable.step (.selectCharacter alice) (Reachable.initial initialState_initial) rfl)
    (by decide)
  ⟨by decide, h.1, h.2.1, (h.2.2.2.2 initialState rfl rfl).2.2.2⟩


theorem lookup_append_new (l : List (Nat × String)) (n : Nat) (m : String)
    (h : ∀ p ∈ l, p.1 < n) : List.lookup n (l ++ [(n, m)]) = some m := by
  induction l with
  | nil => simp [List.lookup]
  | cons p rest ih =>
    obtain ⟨k, v⟩ := p
    have hk : k < n := h (k, v) (List.mem_cons_self _ _)
    have hne : (n == k) = false := by
      simp only [beq_eq_false_iff_ne, ne_eq]
      omega
    simp only [List.cons_append, List.lookup, hne]
    exact ih (fun p hp => h p (List.mem_cons_of_mem _ hp))

theorem filter_append_new (l : List (Nat × String)) (n : Nat) (m : String)
    (h : ∀ p ∈ l, p.1 < n) :
    (l ++ [(n, m)]).filter (fun p => decide (p.1 ≠ n)) = l := by
  rw [List.filter_append]
  have h1 : l.filter (fun p => decide (p.1 ≠ n)) = l := by
    rw [List.filter_eq_self]
    intro p hp
    have := h p hp
    simp only [ne_eq, decide_not, Bool.not_eq_true', decide_eq_false_iff_not]
    omega
  rw [h1]
  simp

theorem reloadModel_true_eq (s : State) :
    reloadModel true s =
      { s with
        engine := none
        modelLoaded := false
        modelLoading := true
        engineStatus := "Loading " ++ s.currentModelId ++ "..."
        engineCreations := s.engineCreations ++ [s.currentModelId]
        pendingLoads := s.pendingLoads ++ [(s.engineCreations.length, s.currentModelId)] } := by
  simp [reloadModel, loadModel, setEngineStatus]

/-- C7, as amended: when a forced reload is issued in a reachable state in which
an earlier load (creation `i`, for model `older`) is still in flight, and the
newer load fulfils first, the manager is ready with the handle of the newer
load; when the superseded load then fulfils, its result is not discarded: the
handle of the superseded load replaces the installed one and the manager stays
ready (`modelLoaded` set, `modelLoading` clear). The installed handle is that of
the load that fulfilled last. -/
theorem superseded_load_installs_its_handle (s : State) (hr : Reachable s) (i : Nat)
    (older : String) (hp : s.pendingLoads.lookup i = some older) :
    ∃ s1 s2 : State,
      run [.reloadModelClick, .engineCreated s.engineCreations.length] s = some s1 ∧
      readiness s1 =
        (true, false, some { creation := s.engineCreations.length, model := s.currentModelId }) ∧
      step (.engineCreated i) s1 = some s2 ∧
      readiness s2 = (true, false, some { creation := i, model := older }) := by
  have hin := (reachable_invariant hr).2
  have hlook := lookup_append_new s.pendingLoads s.engineCreations.length s.currentModelId hin
  have hfil := filter_append_new s.pendingLoads s.engineCreations.length s.currentModelId hin
  have h1 : run [.reloadModelClick, .engineCreated s.engineCreations.length] s =
      some (loadModel_fulfilled s.currentModelId
        { creation := s.engineCreations.length, model := s.currentModelId }
        { reloadModel true s with pendingLoads := s.pendingLoads }) := by
    simp only [run, step, reloadModelClick, reloadModel_true_eq, hlook, hfil]
  have h2 : step (.engineCreated i) (loadModel_fulfilled s.currentModelId
        { creation := s.engineCreations.length, model := s.currentModelId }
        { reloadModel true s with pendingLoads := s.pendingLoads }) =
      some (loadModel_fulfilled older { creation := i, model := older }
        { loadModel_fulfilled s.currentModelId
            { creation := s.engineCreations.length, model := s.currentModelId }
            { reloadModel true s with pendingLoads := s.pendingLoads } with
          pendingLoads := s.pendingLoads.filter (fun p => p.1 ≠ i) }) := by
    simp only [step, loadModel_fulfilled_eq, hp]
  refine ⟨_, _, h1, ?_, h2, ?_⟩
  · rw [loadModel_fulfilled_eq]
    rfl
  · rw [loadModel_fulfilled_eq]
    rfl

/-- The first load (Llama) is in flight, Phi-3 is selected, the reload button
starts a second load: the second fulfils, then the first. -/
theorem superseded_load_installs_its_handle_witness :
    (after [.selectCharacter alice, .modelSelectChange MODEL_PHI3]).pendingLoads.lookup 0 =
      some MODEL_LLAMA3 ∧
    ∃ s1 s2 : State,
      run [.reloadModelClick, .engineCreated 1]
        (after [.selectCharacter alice, .modelSelectChange MODEL_PHI3]) = some s1 ∧
      readiness s1 = (true, false, some { creation := 1, model := MODEL_PHI3 }) ∧
      step (.engineCreated 0) s1 = some s2 ∧
      readiness s2 = (true, false, some { creation := 0, model := MODEL_LLAMA3 }) :=
  ⟨by decide,
    superseded_load_installs_its_handle
      (after [.selectCharacter alice, .modelSelectChange MODEL_PHI3])
      (Reachable.step (.modelSelectChange MODEL_PHI3)
        (Reachable.step (.selectCharacter alice) (Reachable.initial initialState_initial) rfl)
        rfl)
      0 MODEL_LLAMA3 (by decide)⟩

/-- C7 fails as stated: a load for Llama is in flight, Phi-3 is selected and the
reload button pressed; the Phi-3 load (creation 1) fulfils first and its handle
is installed; when the superseded Llama load (creation 0) fulfils, its handle
replaces the Phi-3 handle while Phi-3 stays the selected model. -/
theorem superseded_load_overwrites_newer_handle :
    (run [.selectCharacter alice, .modelSelectChange MODEL_PHI3, .reloadModelClick,
        .engineCreated 1] initialState).map
      (fun s => (s.pendingLoads, readiness s)) =
      some ([(0, MODEL_LLAMA3)], true, false, some { creation := 1, model := MODEL_PHI3 }) ∧
    (run [.selectCharacter alice, .modelSelectChange MODEL_PHI3, .reloadModelClick,
        .engineCreated 1, .engineCreated 0] initialState).map
      (fun s => (s.currentModelId, readiness s)) =
      some (MODEL_PHI3, true, false, some { creation := 0, model := MODEL_LLAMA3 }) := by
  decide

/-- C10: `loadModel` is called while no load is in flight, and the events that
follow neither press the reload button nor settle a creation. When the creation
then rejects, `modelLoaded` and `modelLoading` are both clear, the status is
`"Failed to load model."`, exactly one creation has been requested since the
call (no retry), no load is in flight, a following `sendMessage` changes
nothing, and a following `ensureEngineLoaded` requests a new creation, for the
selected model, and sets `modelLoading`. -/
theorem load_failure_enters_failed (s m : State) (modelId : String) (evs : List Event)
    (hidle : s.pendingLoads = [])
    (hquiet : ∀ ev ∈ evs, ev.touchesLoad = false)
    (hrun : run evs (loadModel modelId s) = some m) :
    ∃ s' : State,
      step (.engineCreationFailed s.engineCreations.length) m = some s' ∧
      s'.modelLoaded = false ∧ s'.modelLoading = false ∧
      s'.engineStatus = "Failed to load model." ∧
      s'.engineCreations = s.engineCreations ++ [modelId] ∧
      s'.pendingLoads = [] ∧
      sendMessage s' = s' ∧
      (ensureEngineLoaded s').modelLoading = true ∧
      (ensureEngineLoaded s').engineCreations =
        s.engineCreations ++ [modelId, s'.currentModelId] := by
  have hlife := lifecycle_flags (run_lifecycle_of_loading hquiet rfl rfl hrun)
  have hpend : m.pendingLoads = [(s.engineCreations.length, modelId)] := by
    rw [hlife.2.2.2.2]
    simp [loadModel, setEngineStatus, hidle]
  have hcre : m.engineCreations = s.engineCreations ++ [modelId] := by
    rw [hlife.2.2.2.1]
    rfl
  have hloaded : m.modelLoaded = false := hlife.1
  refine ⟨loadModel_rejected { m with pendingLoads := [] },
    ?_, ?_, rfl, rfl, hcre, rfl, ?_, ?_, ?_⟩
  · simp [step, hpend, List.lookup]
  · exact hloaded
  · exact sendMessage_eq_self _ (Or.inr (Or.inl hloaded))
  · simp [ensureEngineLoaded, loadModel_rejected, setEngineStatus, hloaded, loadModel]
  · simp [ensureEngineLoaded, loadModel_rejected, setEngineStatus, hloaded, loadModel, hcre]

/-- The first load, started from the initial state and followed by a send and a
change of the selected model, rejects. -/
theorem load_failure_enters_failed_witness :
    initialState.pendingLoads = [] ∧
    ∃ s' : State,
      step (.engineCreationFailed 0)
        (after [.reloadModelClick, .chatInputInput "hi", .send,
          .modelSelectChange MODEL_PHI3]) = some s' ∧
      s'.modelLoaded = false ∧ s'.modelLoading = false ∧
      s'.engineStatus = "Failed to load model." ∧
      s'.engineCreations = [ MODEL_LLAMA3 ] ∧
      s'.pendingLoads = [] ∧
      sendMessage s' = s' ∧
      (ensureEngineLoaded s').modelLoading = true ∧
      (ensureEngineLoaded s').engineCreations = [ MODEL_LLAMA3, s'.currentModelId] :=
  ⟨rfl, load_failure_enters_failed initialState
    (after [.reloadModelClick, .chatInputInput "hi", .send, .modelSelectChange MODEL_PHI3])
    MODEL_LLAMA3 [.chatInputInput "hi", .send, .modelSelectChange MODEL_PHI3]
    rfl (by decide) rfl⟩

/-! ## Sends and the active character, sends in flight -/

theorem ensureEngineLoaded_store (s : State) :
    (ensureEngineLoaded s).activeCharacter = s.activeCharacter ∧
    (ensureEngineLoaded s).conversations = s.conversations := by
  unfold ensureEngineLoaded
  split
  · exact ⟨rfl, rfl⟩
  · exact ⟨rfl, rfl⟩

/-- C8, as amended: the conversation key is read again each time a turn is
appended. A send that passes its preconditions while character `A` is active
appends its user turn to the conversation of `A`'s key. When the generation
settles in a state `m` in which another character `B` is active (as after
`selectCharacter B`, which leaves `A`'s conversation untouched), the assistant
turn (reply or error message) is appended to the conversation of `B`'s key, and
the conversation of `A`'s key gains no turn. -/
theorem assistant_turn_goes_to_active_key (s m : State) (A B : Character) (e : Engine)
    (r : Settled (Option Completion))
    (hact : s.activeCharacter = some A) (ht : jsTrim s.chatInput ≠ "")
    (hl : s.modelLoaded = true) (he : s.engine = some e)
    (hB : m.activeCharacter = some B) (hAB : A.id ≠ B.id) :
    historyOf (sendMessage s) A.id =
      historyOf s A.id ++ [{ role := "user", content := jsTrim s.chatInput }] ∧
    (selectCharacter B (sendMessage s)).activeCharacter = some B ∧
    (selectCharacter B (sendMessage s)).conversations A.id = (sendMessage s).conversations A.id ∧
    historyOf (sendMessage_settled r m) B.id =
      historyOf m B.id ++ [{ role := "assistant", content := assistantText r }] ∧
    (sendMessage_settled r m).conversations A.id = m.conversations A.id := by
  have hkey : getConversationKey s = A.id := by simp [getConversationKey, hact]
  have hkeym : getConversationKey m = B.id := by simp [getConversationKey, hB]
  refine ⟨?_, ?_, ?_, ?_, ?_⟩
  · rw [sendMessage_eq s e ht hl he]
    simp [historyOf, hkey, setConversation_same]
  · rw [selectCharacter_eq, (ensureEngineLoaded_store _).1]
  · rw [selectCharacter_eq, (ensureEngineLoaded_store _).2]
    exact setConversation_other _ _ hAB
  · simp [sendMessage_settled_eq, historyOf, hkeym, setConversation_same]
  · rw [sendMessage_settled_eq, hkeym]
    exact setConversation_other _ _ hAB

/-- Alice active at the send, Bob selected before the generation fulfils. -/
theorem assistant_turn_goes_to_active_key_witness :
    readyWithInput.activeCharacter = some alice ∧ alice.id ≠ bob.id ∧
    historyOf (sendMessage_settled (.fulfilled (some helloCompletion))
        (selectCharacter bob (sendMessage readyWithInput))) bob.id =
      [{ role := "assistant", content := "hello" }] ∧
    historyOf (sendMessage_settled (.fulfilled (some helloCompletion))
        (selectCharacter bob (sendMessage readyWithInput))) alice.id =
      [{ role := "user", content := "hi" }] :=
  have h := assistant_turn_goes_to_active_key readyWithInput
    (selectCharacter bob (sendMessage readyWithInput)) alice bob
    { creation := 0, model := MODEL_LLAMA3 } (.fulfilled (some helloCompletion))
    (by decide) (by decide) (by decide) (by decide) (by decide) (by decide)
  ⟨by decide, by decide, h.2.2.2.1, by
    unfold historyOf
    rw [h.2.2.2.2, h.2.2.1]
    exact h.1⟩

/-- C8 fails as stated: `" hi "` is sent while Alice is active, Bob is selected
while the generation is in flight, and the reply `"hello"` is appended to Bob's
conversation; Alice's conversation ends with the user turn. -/
theorem reply_lands_in_newly_selected_conversation :
    (run [.selectCharacter alice, .engineCreated 0, .chatInputInput " hi ", .send,
        .selectCharacter bob, .completionSettled 0 (.fulfilled (some helloCompletion))]
        initialState).map (fun s => (s.conversations alice.id, s.conversations bob.id)) =
      some (some [{ role := "user", content := "hi" }],
        some [{ role := "assistant", content := "hello" }]) := by
  decide

/-- C9, as amended: `sendMessage` has no guard on a generation in flight. A send
with non-empty trimmed text in a ready state in which an earlier generation
(request `j`) has not settled is processed like any other: its user turn is
appended to the conversation of the current key, one more completion is
requested, and both generations are then in flight. -/
theorem sendMessage_while_generating (s : State) (e : Engine) (j : Nat)
    (hj : j ∈ s.pendingSends) (ht : jsTrim s.chatInput ≠ "")
    (hl : s.modelLoaded = true) (he : s.engine = some e) :
    historyOf (sendMessage s) (getConversationKey s) =
      historyOf s (getConversationKey s) ++
        [{ role := "user", content := jsTrim s.chatInput }] ∧
    (sendMessage s).completionRequests = s.completionRequests ++
      [{ engine := e, model := s.currentModelId,
         messages := (buildChatMessages s).1 ++
           [{ role := "user", content := jsTrim s.chatInput }] }] ∧
    (sendMessage s).pendingSends = s.pendingSends ++ [s.completionRequests.length] ∧
    j ∈ (sendMessage s).pendingSends := by
  rw [sendMessage_eq s e ht hl he]
  refine ⟨by simp [historyOf, setConversation_same], rfl, rfl, ?_⟩
  exact List.mem_append_left _ hj

/-- A second send, `"again"`, while the generation of `" hi "` is in flight. -/
theorem sendMessage_while_generating_witness :
    0 ∈ (after [.selectCharacter alice, .engineCreated 0, .chatInputInput " hi ", .send,
      .chatInputInput "again"]).pendingSends ∧
    (sendMessage (after [.selectCharacter alice, .engineCreated 0, .chatInputInput " hi ", .send,
      .chatInputInput "again"])).pendingSends = [0, 1] ∧
    historyOf (sendMessage (after [.selectCharacter alice, .engineCreated 0,
      .chatInputInput " hi ", .send, .chatInputInput "again"])) alice.id =
      [{ role := "user", content := "hi" }, { role := "user", content := "again" }] :=
  have h := sendMessage_while_generating
    (after [.selectCharacter alice, .engineCreated 0, .chatInputInput " hi ", .send,
      .chatInputInput "again"]) { creation := 0, model := MODEL_LLAMA3 } 0
    (by decide) (by decide) (by decide) (by decide)
  ⟨by decide, h.2.2.1, h.1⟩

/-- C9 fails as stated: after the first send one generation is in flight; a
second send with the text `"again"` appends a second user turn and requests a
second completion while the first has not settled. -/
theorem second_send_is_not_rejected :
    (run [.selectCharacter alice, .engineCreated 0, .chatInputInput " hi ", .send]
        initialState).map
      (fun s => (s.pendingSends, s.completionRequests.length, s.conversations alice.id)) =
      some ([0], 1, some [{ role := "user", content := "hi" }]) ∧
    (run [.selectCharacter alice, .engineCreated 0, .chatInputInput " hi ", .send,
        .chatInputInput "again", .send] initialState).map
      (fun s => (s.pendingSends, s.completionRequests.length, s.conversations alice.id)) =
      some ([0, 1], 2,
        some [{ role := "user", content := "hi" }, { role := "user", content := "again" }]) := by
  decide

/-! ## The installed handle and the selected model -/

theorem mem_of_lookup {l : List (Nat × String)} {i : Nat} {m : String}
    (h : l.lookup i = some m) : (i, m) ∈ l := by
  induction l with
  | nil => simp [List.lookup] at h
  | cons p rest ih =>
    obtain ⟨k, v⟩ := p
    by_cases hk : i = k
    · subst hk
      simp only [List.lookup, beq_self_eq_true, Option.some.injEq] at h
      subst h
      exact List.mem_cons_self _ _
    · have hne : (i == k) = false := by simpa using hk
      simp only [List.lookup, hne] at h
      exact List.mem_cons_of_mem _ (ih h)

theorem getElem?_append_of_some {l : List String} {i : Nat} {m : String} (x : String)
    (h : l[i]? = some m) : (l ++ [x])[i]? = some m := by
  have hi : i < l.length := by
    by_contra hc
    rw [List.getElem?_eq_none (by omega)] at h
    cases h
  rw [List.getElem?_append_left hi, h]

theorem handlesLogged_of_lifecycle {s t : State} (h : lifecycle t = lifecycle s)
    (hs : HandlesLogged s) : HandlesLogged t := by
  have hf := lifecycle_flags h
  unfold HandlesLogged
  rw [hf.1, hf.2.2.1, hf.2.2.2.1, hf.2.2.2.2]
  exact hs

theorem loadModel_handlesLogged (modelId : String) {s : State}
    (hp : ∀ p ∈ s.pendingLoads, s.engineCreations[p.1]? = some p.2)
    (he : ∀ h : Engine, s.engine = some h → s.engineCreations[h.creation]? = some h.model) :
    HandlesLogged (loadModel modelId s) := by
  refine ⟨?_, ?_, ?_⟩
  · intro p hmem
    simp only [loadModel, setEngineStatus, List.mem_append, List.mem_singleton] at hmem ⊢
    rcases hmem with hmem | hmem
    · exact getElem?_append_of_some _ (hp p hmem)
    · rw [hmem]
      exact List.getElem?_concat_length _ _
  · intro h hh
    exact getElem?_append_of_some _ (he h hh)
  · intro hl
    simp [loadModel, setEngineStatus] at hl

theorem ensureEngineLoaded_handlesLogged {s : State} (h : HandlesLogged s) :
    HandlesLogged (ensureEngineLoaded s) := by
  unfold ensureEngineLoaded
  split
  · exact h
  · exact loadModel_handlesLogged _ h.1 h.2.1

theorem reloadModel_handlesLogged (force : Bool) {s : State} (h : HandlesLogged s) :
    HandlesLogged (reloadModel force s) := by
  unfold reloadModel
  split
  · exact ensureEngineLoaded_handlesLogged h
  · exact @loadModel_handlesLogged _ { s with engine := none, modelLoaded := false } h.1
      (fun e he => by simp at he)

theorem step_handlesLogged {ev : Event} {s s' : State} (hs : step ev s = some s')
    (h : HandlesLogged s) : HandlesLogged s' := by
  cases ev with
  | modelSelectChange value =>
    simp only [step, Option.some.injEq] at hs
    subst hs
    unfold modelSelectChange
    exact reloadModel_handlesLogged false (by exact h)
  | aiSettingsModelSelectChange value =>
    simp only [step, Option.some.injEq] at hs
    subst hs
    unfold aiSettingsModelSelectChange
    exact reloadModel_handlesLogged false (by exact h)
  | reloadModelClick =>
    simp only [step, Option.some.injEq] at hs
    subst hs
    exact reloadModel_handlesLogged true h
  | chatInputInput value =>
    simp only [step, Option.some.injEq] at hs
    subst hs
    exact h
  | send =>
    simp only [step, Option.some.injEq] at hs
    subst hs
    exact handlesLogged_of_lifecycle (sendMessage_lifecycle s) h
  | selectCharacter char =>
    simp only [step, Option.some.injEq] at hs
    subst hs
    rw [selectCharacter_eq]
    exact ensureEngineLoaded_handlesLogged (by exact h)
  | savePersona name description src =>
    simp only [step, Option.some.injEq] at hs
    subst hs
    exact h
  | initProgress creation text =>
    simp only [step] at hs
    split at hs
    · simp only [Option.some.injEq] at hs
      subst hs
      unfold initProgressCallback
      split
      · split
        · exact h
        · exact h
      · exact h
    · simp at hs
  | engineCreated creation =>
    simp only [step] at hs
    split at hs
    · next modelId hlook =>
      simp only [Option.some.injEq] at hs
      subst hs
      rw [loadModel_fulfilled_eq]
      refine ⟨fun p hp => h.1 p (List.mem_of_mem_filter hp), ?_, fun _ => by simp⟩
      intro e he
      simp only [Option.some.injEq] at he
      subst he
      exact h.1 _ (mem_of_lookup hlook)
    · simp at hs
  | engineCreationFailed creation =>
    simp only [step] at hs
    split at hs
    · simp only [Option.some.injEq] at hs
      subst hs
      exact ⟨fun p hp => h.1 p (List.mem_of_mem_filter hp), h.2.1, h.2.2⟩
    · simp at hs
  | completionSettled request r =>
    simp only [step] at hs
    split at hs
    · simp only [Option.some.injEq] at hs
      subst hs
      exact handlesLogged_of_lifecycle (sendMessage_settled_lifecycle r _) h
    · simp at hs

theorem reachable_handlesLogged {s : State} (h : Reachable s) : HandlesLogged s := by
  induction h with
  | initial hi =>
    refine ⟨?_, ?_, ?_⟩
    · intro p hp
      rw [hi.pendingLoads] at hp
      simp at hp
    · intro e he
      rw [hi.engine] at he
      cases he
    · intro hl
      rw [hi.modelLoaded] at hl
      cases hl
  | step ev _ hs ih => exact step_handlesLogged hs ih

theorem reachable_of_calm {s : State} (h : ReachableCalm s) : Reachable s := by
  induction h with
  | initial hi => exact Reachable.initial hi
  | step ev _ _ hs ih => exact Reachable.step ev ih hs

theorem sendMessage_currentModelId (s : State) :
    (sendMessage s).currentModelId = s.currentModelId := by
  by_cases hg : jsTrim s.chatInput = "" ∨ s.modelLoaded = false ∨ s.engine = none
  · rw [sendMessage_eq_self s hg]
  · have ht : jsTrim s.chatInput ≠ "" := fun h => hg (Or.inl h)
    have hl : s.modelLoaded = true := by
      cases h : s.modelLoaded
      · exact absurd (Or.inr (Or.inl h)) hg
      · rfl
    cases he : s.engine with
    | none => exact absurd (Or.inr (Or.inr he)) hg
    | some e => rw [sendMessage_eq s e ht hl he]

theorem sendMessage_settled_currentModelId (r : Settled (Option Completion)) (s : State) :
    (sendMessage_settled r s).currentModelId = s.currentModelId := by
  rw [sendMessage_settled_eq]

theorem oneLoad_of_lifecycle {s t : State} (h : lifecycle t = lifecycle s)
    (hm : t.currentModelId = s.currentModelId) (hs : OneLoadAtATime s) :
    OneLoadAtATime t := by
  have hf := lifecycle_flags h
  unfold OneLoadAtATime
  rw [hf.1, hf.2.1, hf.2.2.1, hf.2.2.2.2, hm]
  exact hs

theorem loadModel_oneLoad {s : State} (hp : s.pendingLoads = []) :
    OneLoadAtATime (loadModel s.currentModelId s) := by
  refine ⟨fun _ => ⟨rfl, s.engineCreations.length, ?_⟩, fun h => ?_, fun h => ?_⟩
  · simp [loadModel, setEngineStatus, hp]
  · simp [loadModel, setEngineStatus] at h
  · simp [loadModel, setEngineStatus] at h

theorem ensureEngineLoaded_oneLoad {s : State} (h : OneLoadAtATime s) :
    OneLoadAtATime (ensureEngineLoaded s) := by
  unfold ensureEngineLoaded
  split
  · exact h
  · next hc =>
    have hl : s.modelLoading = false := by
      cases hl : s.modelLoading
      · rfl
      · simp [hl] at hc
    exact loadModel_oneLoad (h.2.1 hl)

theorem reloadModel_oneLoad (force : Bool) {s : State} (hp : s.pendingLoads = [])
    (hl : s.modelLoading = false) : OneLoadAtATime (reloadModel force s) := by
  unfold reloadModel
  split
  · next hc =>
    have hld : s.modelLoaded = false := by
      cases hld : s.modelLoaded
      · rfl
      · simp [hld] at hc
    have : ensureEngineLoaded s = loadModel s.currentModelId s := by
      simp [ensureEngineLoaded, hl, hld]
    rw [this]
    exact loadModel_oneLoad hp
  · exact @loadModel_oneLoad { s with engine := none, modelLoaded := false } hp

theorem not_loading_of_no_pending {s : State} (h : OneLoadAtATime s)
    (hp : s.pendingLoads = []) : s.modelLoading = false := by
  cases hl : s.modelLoading
  · rfl
  · obtain ⟨_, i, hi⟩ := h.1 hl
    rw [hp] at hi
    cases hi

theorem pending_of_lookup {s : State} (h : OneLoadAtATime s) {creation : Nat} {modelId : String}
    (hlook : s.pendingLoads.lookup creation = some modelId) :
    s.modelLoaded = false ∧ modelId = s.currentModelId ∧
    s.pendingLoads.filter (fun p => p.1 ≠ creation) = [] := by
  cases hl : s.modelLoading
  · rw [h.2.1 hl] at hlook
    simp [List.lookup] at hlook
  · obtain ⟨hld, i, hi⟩ := h.1 hl
    rw [hi] at hlook ⊢
    by_cases hc : creation = i
    · subst hc
      simp only [List.lookup, beq_self_eq_true, Option.some.injEq] at hlook
      exact ⟨hld, hlook.symm, by simp⟩
    · have hne : (creation == i) = false := by simpa using hc
      simp [List.lookup, hne] at hlook

theorem step_oneLoad {ev : Event} {s s' : State} (hs : step ev s = some s')
    (hcalm : ev.usesModelControl = true → s.pendingLoads = [])
    (h : OneLoadAtATime s) : OneLoadAtATime s' := by
  cases ev with
  | modelSelectChange value =>
    simp only [step, Option.some.injEq] at hs
    subst hs
    have hl : s.modelLoading = false := not_loading_of_no_pending h (hcalm rfl)
    have hp : s.pendingLoads = [] := hcalm rfl
    unfold modelSelectChange
    exact reloadModel_oneLoad false (by exact hp) (by exact hl)
  | aiSettingsModelSelectChange value =>
    simp only [step, Option.some.injEq] at hs
    subst hs
    have hl : s.modelLoading = false := not_loading_of_no_pending h (hcalm rfl)
    have hp : s.pendingLoads = [] := hcalm rfl
    unfold aiSettingsModelSelectChange
    exact reloadModel_oneLoad false (by exact hp) (by exact hl)
  | reloadModelClick =>
    simp only [step, Option.some.injEq] at hs
    subst hs
    exact reloadModel_oneLoad true (hcalm rfl) (not_loading_of_no_pending h (hcalm rfl))
  | chatInputInput value =>
    simp only [step, Option.some.injEq] at hs
    subst hs
    exact h
  | send =>
    simp only [step, Option.some.injEq] at hs
    subst hs
    exact oneLoad_of_lifecycle (sendMessage_lifecycle s) (sendMessage_currentModelId s) h
  | selectCharacter char =>
    simp only [step, Option.some.injEq] at hs
    subst hs
    rw [selectCharacter_eq]
    exact ensureEngineLoaded_oneLoad (by exact h)
  | savePersona name description src =>
    simp only [step, Option.some.injEq] at hs
    subst hs
    exact h
  | initProgress creation text =>
    simp only [step] at hs
    split at hs
    · simp only [Option.some.injEq] at hs
      subst hs
      unfold initProgressCallback
      split
      · split
        · exact h
        · exact h
      · exact h
    · simp at hs
  | engineCreated creation =>
    simp only [step] at hs
    split at hs
    · next modelId hlook =>
      simp only [Option.some.injEq] at hs
      subst hs
      obtain ⟨_, hm, hfil⟩ := pending_of_lookup h hlook
      rw [loadModel_fulfilled_eq]
      refine ⟨fun hl => by simp at hl, fun _ => hfil, fun _ => ⟨_, rfl, hm⟩⟩
    · simp at hs
  | engineCreationFailed creation =>
    simp only [step] at hs
    split at hs
    · next modelId hlook =>
      simp only [Option.some.injEq] at hs
      subst hs
      obtain ⟨hld, _, hfil⟩ := pending_of_lookup h hlook
      refine ⟨fun hl => by simp [loadModel_rejected, setEngineStatus] at hl, fun _ => hfil, ?_⟩
      intro hl
      have : s.modelLoaded = true := hl
      rw [hld] at this
      cases this
    · simp at hs
  | completionSettled request r =>
    simp only [step] at hs
    split at hs
    · simp only [Option.some.injEq] at hs
      subst hs
      exact oneLoad_of_lifecycle (sendMessage_settled_lifecycle r _)
        (sendMessage_settled_currentModelId r _) h
    · simp at hs

theorem calm_oneLoad {s : State} (h : ReachableCalm s) : OneLoadAtATime s := by
  induction h with
  | initial hi =>
    refine ⟨fun hl => ?_, fun _ => hi.pendingLoads, fun hl => ?_⟩
    · rw [hi.modelLoading] at hl
      cases hl
    · rw [hi.modelLoaded] at hl
      cases hl
  | step ev _ hcalm hs ih => exact step_oneLoad hs hcalm ih

theorem ensureEngineLoaded_creations (s : State) :
    (ensureEngineLoaded s).currentModelId = s.currentModelId ∧
    ((ensureEngineLoaded s).engineCreations = s.engineCreations ∨
      (ensureEngineLoaded s).engineCreations = s.engineCreations ++ [s.currentModelId]) := by
  unfold ensureEngineLoaded
  split
  · exact ⟨rfl, Or.inl rfl⟩
  · exact ⟨rfl, Or.inr rfl⟩

theorem reloadModel_creations (force : Bool) (s : State) :
    (reloadModel force s).currentModelId = s.currentModelId ∧
    ((reloadModel force s).engineCreations = s.engineCreations ∨
      (reloadModel force s).engineCreations = s.engineCreations ++ [s.currentModelId]) := by
  unfold reloadModel
  split
  · exact ensureEngineLoaded_creations s
  · exact ⟨rfl, Or.inr rfl⟩

theorem step_creations {ev : Event} {s s' : State} (hs : step ev s = some s') :
    s'.engineCreations = s.engineCreations ∨
    s'.engineCreations = s.engineCreations ++ [s'.currentModelId] := by
  cases ev with
  | modelSelectChange value =>
    simp only [step, Option.some.injEq] at hs
    subst hs
    unfold modelSelectChange
    have h := reloadModel_creations false
      { s with modelSelect := value, currentModelId := value, aiSettingsModelSelect := value }
    rw [h.1]
    exact h.2
  | aiSettingsModelSelectChange value =>
    simp only [step, Option.some.injEq] at hs
    subst hs
    unfold aiSettingsModelSelectChange
    have h := reloadModel_creations false
      { s with aiSettingsModelSelect := value, currentModelId := value, modelSelect := value }
    rw [h.1]
    exact h.2
  | reloadModelClick =>
    simp only [step, Option.some.injEq] at hs
    subst hs
    have h := reloadModel_creations true s
    unfold reloadModelClick
    rw [h.1]
    exact h.2
  | chatInputInput value =>
    simp only [step, Option.some.injEq] at hs
    subst hs
    exact Or.inl rfl
  | send =>
    simp only [step, Option.some.injEq] at hs
    subst hs
    exact Or.inl (lifecycle_flags (sendMessage_lifecycle s)).2.2.2.1
  | selectCharacter char =>
    simp only [step, Option.some.injEq] at hs
    subst hs
    rw [selectCharacter_eq]
    have h := ensureEngineLoaded_creations
      { s with
        activeCharacter := some char
        activeCharacterName := char.name
        activeCharacterByline := "Character by: " ++ jsOr char.by_ "Unknown"
        chatLog :=
          (historyOf s char.id).map (fun msg => (msg.role, msg.content)) ++
            (if (historyOf s char.id).length = 0 ∧ char.greeting ≠ "" then
              [("assistant", char.greeting)] else [])
        conversations :=
          setConversation s.conversations char.id (historyOf s char.id ++
            (if (historyOf s char.id).length = 0 ∧ char.greeting ≠ "" then
              [{ role := "assistant", content := char.greeting }] else []))
        activeScreen := "chat" }
    rw [h.1]
    exact h.2
  | savePersona name description src =>
    simp only [step, Option.some.injEq] at hs
    subst hs
    exact Or.inl rfl
  | initProgress creation text =>
    simp only [step] at hs
    split at hs
    · simp only [Option.some.injEq] at hs
      subst hs
      unfold initProgressCallback
      split
      · split
        · exact Or.inl rfl
        · exact Or.inl rfl
      · exact Or.inl rfl
    · simp at hs
  | engineCreated creation =>
    simp only [step] at hs
    split at hs
    · simp only [Option.some.injEq] at hs
      subst hs
      rw [loadModel_fulfilled_eq]
      exact Or.inl rfl
    · simp at hs
  | engineCreationFailed creation =>
    simp only [step] at hs
    split at hs
    · simp only [Option.some.injEq] at hs
      subst hs
      exact Or.inl rfl
    · simp at hs
  | completionSettled request r =>
    simp only [step] at hs
    split at hs
    · simp only [Option.some.injEq] at hs
      subst hs
      exact Or.inl (lifecycle_flags (sendMessage_settled_lifecycle r _)).2.2.2.1
    · simp at hs

/-- C11, as amended: in every reachable state, each creation the script requests
is for the model id selected at the moment of the request, and whenever
`modelLoaded` is set the installed handle is non-null and is the handle of one
of these creations, for the model id that creation was requested for. That
model id is the selected one (`currentModelId`) in the states reached when the
selectors and the reload button are used only while no load is in flight; it
need not be otherwise. A send that passes its guards requests the completion on
the installed handle and passes `currentModelId`, whatever model the handle was
loaded for. -/
theorem loaded_handle_is_logged (s : State) (hr : Reachable s) :
    (∀ (ev : Event) (s' : State), step ev s = some s' →
      s'.engineCreations = s.engineCreations ∨
      s'.engineCreations = s.engineCreations ++ [s'.currentModelId]) ∧
    (s.modelLoaded = true →
      ∃ h : Engine, s.engine = some h ∧
        s.engineCreations[h.creation]? = some h.model ∧
        (ReachableCalm s → h.model = s.currentModelId) ∧
        (jsTrim s.chatInput ≠ "" →
          (sendMessage s).completionRequests = s.completionRequests ++
            [{ engine := h, model := s.currentModelId,
               messages := (buildChatMessages s).1 ++
                 [{ role := "user", content := jsTrim s.chatInput }] }])) := by
  refine ⟨fun ev s' hs => step_creations hs, fun hl => ?_⟩
  have hlog := reachable_handlesLogged hr
  cases he : s.engine with
  | none => exact absurd he (hlog.2.2 hl)
  | some h =>
    refine ⟨h, rfl, hlog.2.1 h he, ?_, ?_⟩
    · intro hc
      obtain ⟨h', he', hm⟩ := (calm_oneLoad hc).2.2 hl
      rw [he] at he'
      cases he'
      exact hm
    · intro ht
      rw [sendMessage_eq s h ht hl he]

/-- Phi-3 selected in the initial state, its load fulfilled, `"hi"` typed: the
handle is that of creation 0, for Phi-3, and the send passes Phi-3 to it. -/
theorem loaded_handle_is_logged_witness :
    (after [.modelSelectChange MODEL_PHI3, .engineCreated 0, .chatInputInput "hi"]).modelLoaded
      = true ∧
    ∃ h : Engine,
      (after [.modelSelectChange MODEL_PHI3, .engineCreated 0, .chatInputInput "hi"]).engine
        = some h ∧
      [ MODEL_PHI3 ][h.creation]? = some h.model ∧
      h.model = MODEL_PHI3 ∧
      (sendMessage (after [.modelSelectChange MODEL_PHI3, .engineCreated 0,
        .chatInputInput "hi"])).completionRequests.map (fun r => (r.engine, r.model)) =
        [(h, MODEL_PHI3)] := by
  have c1 : ReachableCalm (after [.modelSelectChange MODEL_PHI3]) :=
    ReachableCalm.step (.modelSelectChange MODEL_PHI3)
      (ReachableCalm.initial initialState_initial) (fun _ => rfl) rfl
  have c2 : ReachableCalm (after [.modelSelectChange MODEL_PHI3, .engineCreated 0]) :=
    ReachableCalm.step (.engineCreated 0) c1 (fun h => by cases h) rfl
  have c3 : ReachableCalm
      (after [.modelSelectChange MODEL_PHI3, .engineCreated 0, .chatInputInput "hi"]) :=
    ReachableCalm.step (.chatInputInput "hi") c2 (fun h => by cases h) rfl
  obtain ⟨h, he, hlog, hcalm, hsend⟩ :=
    (loaded_handle_is_logged _ (reachable_of_calm c3)).2 (by decide)
  refine ⟨by decide, h, he, hlog, hcalm c3, ?_⟩
  rw [hsend (by decide)]
  rfl

/-- C11 fails as stated: Phi-3 is selected in the initial state, which starts its
load; Llama is selected while that load is in flight, which is absorbed; the
load fulfils. `modelLoaded` is set, the handle is that of Phi-3 and the selected
model is Llama; the send that follows passes the Llama id to the Phi-3 handle. -/
theorem loaded_handle_of_another_model :
    MODEL_PHI3 ≠ MODEL_LLAMA3 ∧
    (run [.modelSelectChange MODEL_PHI3, .modelSelectChange MODEL_LLAMA3, .engineCreated 0]
        initialState).map (fun s => (s.modelLoaded, s.engine, s.currentModelId)) =
      some (true, some { creation := 0, model := MODEL_PHI3 }, MODEL_LLAMA3) ∧
    (run [.modelSelectChange MODEL_PHI3, .modelSelectChange MODEL_LLAMA3, .engineCreated 0,
        .chatInputInput "hi", .send] initialState).map
      (fun s => s.completionRequests.map (fun r => (r.engine, r.model))) =
      some [({ creation := 0, model := MODEL_PHI3 }, MODEL_LLAMA3)] := by
  decide

end Script
